import Mathlib

/-!
Verification development for the coordination core of the `watch-and-learn`
multi-agent browser-swarm repository.

The development shallowly embeds the three core components:

* the Worker Pool (`src/services/orchestrator/worker_pool.py` together with
  the data model in `src/services/orchestrator/models.py`),
* the Swarm Coordinator (`src/services/python-agent/orchestrator.py`), and
* the Automation Protocol Client (`src/services/python-agent/mcp_client.py`).

Modelling conventions, used throughout and noted again at the definitions
they affect:

* External collaborators (the Gemini planning/synthesis oracle, the JSON
  decoder `json.loads`, `base64.b64decode`, and the HTTP transport) are
  modelled as explicit parameters: an oracle outcome is an
  `Except String String` (`.error` = the call raised), an HTTP exchange is a
  scripted list of responses consumed in order.
* Python exceptions are modelled with `Except String α`: a function that can
  raise returns `Except`; a `try/except` is a `match` on that value.
* Python strings are Lean `String`s, but all operations on them
  (`lower`, `strip`, `find`, slicing, the two regex searches) are
  re-implemented over `String.data` character lists so that every definition
  evaluates by kernel reduction.  Python `\s` is modelled by `pyIsSpace`.
* `datetime` fields (`started_at`, `last_heartbeat`, durations) carry no
  control flow in the source and are elided from the state structures.
* Python `asyncio` scheduling: a coroutine yields control only at an await
  that actually suspends.  In `worker_pool.py` no lock is ever held across
  an `await` (every `async with self._lock:` block is straight-line code),
  so the pool lock is never contended and acquiring it never suspends; the
  only genuine suspension points are the HTTP calls.  The small-step pool
  model therefore treats each maximal region between HTTP awaits as one
  atomic step.
-/

namespace WatchAndLearn

/-! ## Python string primitives -/

/-- Python whitespace class (the characters matched by `str.strip()` and
by the regex class `\s`). -/
def pyIsSpace (c : Char) : Bool :=
  c = ' ' ∨ c = '\t' ∨ c = '\n' ∨ c = '\r' ∨ c = '\x0b' ∨ c = '\x0c'

/-- ASCII lower-casing of one character, as `str.lower()` acts on the
ASCII identifiers appearing in this code base. -/
def pyLowerChar (c : Char) : Char :=
  if 'A' ≤ c ∧ c ≤ 'Z' then Char.ofNat (c.toNat + 32) else c

/-- Python `s.lower()`. -/
def pyLower (s : String) : String := String.mk (s.data.map pyLowerChar)

/-- Python `s.strip()` on a character list. -/
def pyStripL (cs : List Char) : List Char :=
  ((cs.dropWhile pyIsSpace).reverse.dropWhile pyIsSpace).reverse

/-- Python `s.strip()`. -/
def pyStrip (s : String) : String := String.mk (pyStripL s.data)

/-- Index of the first occurrence of `pat` in a character list
(Python `s.find(pat)` restricted to the found case). -/
def findSub (pat : List Char) : List Char → Option Nat
  | [] => if pat.isPrefixOf ([] : List Char) then some 0 else none
  | c :: t =>
    if pat.isPrefixOf (c :: t) then some 0
    else (findSub pat t).map (· + 1)

/-- Python `s.find(pat, start)` restricted to the found case. -/
def findSubFrom (pat : List Char) (cs : List Char) (start : Nat) : Option Nat :=
  (findSub pat (cs.drop start)).map (· + start)

/-- Python slice `s[a:b]` for a non-negative `b` (clamping semantics). -/
def sliceL (cs : List Char) (a b : Nat) : List Char := (cs.take b).drop a

/-- Python `sep.join(parts)`. -/
def joinSep (sep : String) : List String → String
  | [] => ""
  | [x] => x
  | x :: y :: t => x ++ sep ++ joinSep sep (y :: t)

/-! ## JSON values

`Json` is the value type produced by the external decoder `json.loads` and
consumed by the code under verification; `truthy` is Python truthiness. -/

inductive Json where
  | null : Json
  | bool (b : Bool) : Json
  | num (n : Int) : Json
  | str (s : String) : Json
  | arr (xs : List Json) : Json
  | obj (fields : List (String × Json)) : Json

/-- Lookup of a key in a JSON object field list (first match, as in a
Python dict whose keys are unique). -/
def jlookup : List (String × Json) → String → Option Json
  | [], _ => none
  | (k, v) :: t, key => if k = key then some v else jlookup t key

/-- Python truthiness of a JSON value. -/
def Json.truthy : Json → Bool
  | .null => false
  | .bool b => b
  | .num n => n ≠ 0
  | .str s => s ≠ ""
  | .arr xs => !xs.isEmpty
  | .obj fs => !fs.isEmpty

/-- Whether a JSON value is an object (a Python dict). -/
def Json.isObj : Json → Bool
  | .obj _ => true
  | _ => false

/-- Display string of a JSON value, standing in for Python `str(value)` in
the places where the source coerces an arbitrary decoded value to text.
No claim depends on the exact rendering. -/
def Json.asText : Json → String
  | .null => "None"
  | .bool b => if b then "True" else "False"
  | .num n => toString n
  | .str s => s
  | .arr _ => "[...]"
  | .obj _ => "..."

/-! ## Worker pool data model (`src/services/orchestrator/models.py`) -/

inductive WorkerStatus where
  | idle | running | error | starting | stopping
deriving Repr, DecidableEq

inductive TaskStatus where
  | pending | in_progress | completed | failed
deriving Repr, DecidableEq

/-- Port configuration of one worker (`WorkerConfig`). -/
structure WorkerConfig where
  worker_id : Nat
  agent_port : Nat
  video_port : Nat
  mcp_port : Nat
  vnc_port : Nat
deriving Repr, DecidableEq

/-- Runtime state of one worker (`WorkerInstance`); the `datetime` fields
are elided. -/
structure WorkerInstance where
  config : WorkerConfig
  status : WorkerStatus := .idle
  current_task : Option String := none
  assigned_company : Option String := none
deriving Repr, DecidableEq

/-- Result of one assigned task (`TaskResult`); `duration_seconds` is
elided. -/
structure TaskResult where
  worker_id : Nat
  company_name : String
  valuation : Option String := none
  source : Option String := none
  confidence : String := "Medium"
  raw_response : Option String := none
  status : TaskStatus := .pending
  error : Option String := none
deriving Repr, DecidableEq

/-- Port allocation of `generate_worker_config` (worker_pool.py lines
34-46). -/
def generate_worker_config (worker_id : Nat) : WorkerConfig :=
  { worker_id := worker_id
    agent_port := 8000
    video_port := 8766 + worker_id - 1
    mcp_port := 3011 + worker_id - 1
    vnc_port := 6081 + worker_id - 1 }

/-- The pool's worker registry `self.workers`: a Python dict keyed by
worker id, modelled as an association list in insertion order. -/
abbrev Workers := List (Nat × WorkerInstance)

/-- Dict lookup `self.workers.get(worker_id)`. -/
def wlookup : Workers → Nat → Option WorkerInstance
  | [], _ => none
  | (k, w) :: t, wid => if k = wid then some w else wlookup t wid

/-- In-place mutation of the worker object stored under `wid` (Python
mutates the `WorkerInstance` object; the dict itself is unchanged). -/
def wupdate : Workers → Nat → (WorkerInstance → WorkerInstance) → Workers
  | [], _, _ => []
  | (k, w) :: t, wid, f =>
    (if k = wid then (k, f w) else (k, w)) :: wupdate t wid f

/-- In-place mutation of every worker object (the loop in `shutdown`). -/
def wmapAll : Workers → (WorkerInstance → WorkerInstance) → Workers
  | [], _ => []
  | (k, w) :: t, f => (k, f w) :: wmapAll t f

/-- Outcome of one remote HTTP call made by the pool: a response with a
status code and the result of decoding its body with `response.json()`
(`.error` = the decode raised), or a raised transport exception
(connect error, timeout, ...) carrying `str(e)`. -/
inductive RemoteOutcome where
  | resp (statusCode : Nat) (body : Except String Json)
  | exc (msg : String)

/-- Value string of a `WorkerStatus` as interpolated into the not-idle
error message; the exact rendering is irrelevant to every claim. -/
def WorkerStatus.valueStr : WorkerStatus → String
  | .idle => "idle"
  | .running => "running"
  | .error => "error"
  | .starting => "starting"
  | .stopping => "stopping"

/-- Extraction of `result_data.get("response", "")` followed by its use as
a `str` in `_parse_valuation_response`: a missing key yields `""`, a
non-dict payload raises `AttributeError`, a non-string value raises
`TypeError` inside the regex search; both raises are caught by the
enclosing `except` of `assign_task`. -/
def responseFieldStr : Json → Except String String
  | .obj fs =>
    match jlookup fs "response" with
    | none => .ok ""
    | some (.str s) => .ok s
    | some _ => .error "TypeError: expected string or bytes-like object"
  | _ => .error "AttributeError: object has no attribute get"

/-- Shorthand for a `Failed` `TaskResult` as built throughout
`worker_pool.py`. -/
def failedResult (wid : Nat) (company : String) (err : String) : TaskResult :=
  { worker_id := wid, company_name := company, status := .failed, error := some err }

/-- Result computed by the `try`/`except` section of
`WorkerPool.assign_task` (worker_pool.py lines 159-204) once the remote
call resolved: payload parsing on HTTP 200, a `Failed` result carrying
the status code on any other status, a `Failed` result carrying `str(e)`
on a raised exception (decode failure, transport error, timeout).
`parseVal` abstracts the regex heuristics of `_parse_valuation_response`
(valuation, source, confidence); its output never affects any claim. -/
def assign_result (parseVal : String → String × String × String)
    (worker_id : Nat) (company_name : String) (outcome : RemoteOutcome) : TaskResult :=
  match outcome with
  | .resp 200 (.ok j) =>
    match responseFieldStr j with
    | .ok raw =>
      { worker_id := worker_id, company_name := company_name
        valuation := some (parseVal raw).1, source := some (parseVal raw).2.1
        confidence := (parseVal raw).2.2
        raw_response := some raw, status := .completed }
    | .error e => failedResult worker_id company_name e
  | .resp 200 (.error e) => failedResult worker_id company_name e
  | .resp code _ =>
    failedResult worker_id company_name
      ("Worker returned status " ++ toString code)
  | .exc e => failedResult worker_id company_name e

/-- Body of `WorkerPool.assign_task` (worker_pool.py lines 127-211),
sequential form.  The `finally` block is the unconditional `wupdate`
applied after the per-outcome result is computed. -/
def assign_task (parseVal : String → String × String × String) (pool : Workers)
    (worker_id : Nat) (company_name task_prompt : String)
    (outcome : RemoteOutcome) : TaskResult × Workers :=
  match wlookup pool worker_id with
  | none =>
    (failedResult worker_id company_name
      ("Worker " ++ toString worker_id ++ " not found"), pool)
  | some worker =>
    if worker.status ≠ .idle then
      (failedResult worker_id company_name
        ("Worker " ++ toString worker_id ++ " is not idle (status: " ++
          worker.status.valueStr ++ ")"), pool)
    else
      -- mark worker as running (lines 152-155), remote call, then the
      -- finally block marks the worker idle again (lines 206-211)
      (assign_result parseVal worker_id company_name outcome,
        wupdate
          (wupdate pool worker_id (fun w =>
            { w with status := .running
                     current_task := some task_prompt
                     assigned_company := some company_name }))
          worker_id (fun w =>
            { w with status := .idle, current_task := none, assigned_company := none }))

/-- `WorkerPool.get_idle_workers` (lines 118-125): filter the registry
values for `Idle` status, then take the first `count`. -/
def get_idle_workers (pool : Workers) (count : Nat) : List WorkerInstance :=
  ((pool.map Prod.snd).filter (fun w => w.status = .idle)).take count

/-- Concurrent assignment of worker/task pairs (`asyncio.gather` in
`execute_parallel_tasks`).  The assignments target pairwise distinct
workers that are all idle, so they do not interact; the gather is modelled
by running them in order, threading the pool state.  `outcomes` gives each
worker id the outcome of its remote call. -/
def runAssignments (parseVal : String → String × String × String)
    (outcomes : Nat → RemoteOutcome) :
    Workers → List (WorkerInstance × (String × String)) → List TaskResult × Workers
  | pool, [] => ([], pool)
  | pool, (w, tp) :: rest =>
    let r := assign_task parseVal pool w.config.worker_id tp.1 tp.2
      (outcomes w.config.worker_id)
    let rs := runAssignments parseVal outcomes r.2 rest
    (r.1 :: rs.1, rs.2)

/-- `WorkerPool.execute_parallel_tasks` (lines 258-290): acquire idle
workers, reject the whole batch if none, otherwise zip workers with tasks
and assign all pairs. -/
def execute_parallel_tasks (parseVal : String → String × String × String)
    (pool : Workers) (tasks : List (String × String))
    (outcomes : Nat → RemoteOutcome) : List TaskResult × Workers :=
  if (get_idle_workers pool tasks.length).isEmpty then
    (tasks.map (fun t => failedResult 0 t.1 "No idle workers available"), pool)
  else
    runAssignments parseVal outcomes pool ((get_idle_workers pool tasks.length).zip tasks)

/-! ## Small-step concurrency model of the worker pool

Justified by the scheduling convention in the header: in `worker_pool.py`
no coroutine ever holds the pool lock across an `await` (every
`async with self._lock:` body is straight-line code), so the lock is never
contended, acquiring it never suspends, and the only genuine suspension
points are the HTTP awaits.  Consequently

* `assign_task` decomposes into exactly two atomic segments: the
  existence/idleness check together with the mark-Running block (lines
  134-155, no intervening suspension), and the result handling together
  with the `finally` release block (lines 169-211), separated by the
  `await http_client.post` of line 163;
* `_check_worker_health` decomposes into the lookup (lines 93-95) and the
  status write (lines 102-115), separated by the `await http_client.get`;
* `get_idle_workers`, `get_status` and the mutating part of `shutdown`
  are single atomic segments.

`initialize` is invoked once per pool lifecycle (by the service lifespan
hook, `src/services/orchestrator/main.py` lines 65-66); the initial state
below is the pool just after `initialize` created the `Starting` workers
and spawned one health probe per worker. -/

/-- One in-flight coroutine of the pool. -/
inductive PoolProc where
  /-- A health probe before its lookup segment (start of
  `_check_worker_health`). -/
  | probeStart (wid : Nat) (outcome : RemoteOutcome)
  /-- A health probe that captured its worker and awaits the HTTP reply. -/
  | probeWait (wid : Nat) (outcome : RemoteOutcome)
  /-- An `assign_task` coroutine before its check/mark segment. -/
  | assignStart (wid : Nat) (company prompt : String) (outcome : RemoteOutcome)
  /-- An `assign_task` coroutine that marked its worker `Running` and
  awaits the remote `/execute` reply. -/
  | assignWait (wid : Nat) (company prompt : String) (outcome : RemoteOutcome)
  /-- A finished coroutine (the result of an assignment, if any). -/
  | finished (result : Option TaskResult)

/-- State of the pool instance together with its in-flight coroutines. -/
structure PoolSys where
  workers : Workers
  procs : List PoolProc

/-- Replace the `i`-th process. -/
def setProc (ps : List PoolProc) (i : Nat) (p : PoolProc) : List PoolProc :=
  ps.set i p

/-- Status written by the health probe once its HTTP call resolves
(lines 102-115): `Idle` on 200, `Error` on any other status, back to
`Starting` on a transport exception. -/
def probeStatus : RemoteOutcome → WorkerStatus
  | .resp 200 _ => .idle
  | .resp _ _ => .error
  | .exc _ => .starting

/-- Advance the `i`-th in-flight coroutine by one atomic segment.
`parseVal` is threaded to `assign_result` exactly as in the sequential
embedding. -/
def stepProc (parseVal : String → String × String × String)
    (s : PoolSys) (i : Nat) : PoolSys :=
  match s.procs.get? i with
  | none => s
  | some (.probeStart wid outcome) =>
    match wlookup s.workers wid with
    | none => { s with procs := setProc s.procs i (.finished none) }
    | some _ => { s with procs := setProc s.procs i (.probeWait wid outcome) }
  | some (.probeWait wid outcome) =>
    { workers := wupdate s.workers wid (fun w => { w with status := probeStatus outcome })
      procs := setProc s.procs i (.finished none) }
  | some (.assignStart wid company prompt outcome) =>
    match wlookup s.workers wid with
    | none =>
      { s with procs := setProc s.procs i (.finished (some (failedResult wid company
          ("Worker " ++ toString wid ++ " not found")))) }
    | some worker =>
      if worker.status ≠ .idle then
        { s with procs := setProc s.procs i (.finished (some (failedResult wid company
            ("Worker " ++ toString wid ++ " is not idle (status: " ++
              worker.status.valueStr ++ ")")))) }
      else
        { workers := wupdate s.workers wid (fun w =>
            { w with status := .running
                     current_task := some prompt
                     assigned_company := some company })
          procs := setProc s.procs i (.assignWait wid company prompt outcome) }
  | some (.assignWait wid company _prompt outcome) =>
    { workers := wupdate s.workers wid (fun w =>
        { w with status := .idle, current_task := none, assigned_company := none })
      procs := setProc s.procs i
        (.finished (some (assign_result parseVal wid company outcome))) }
  | some (.finished _) => s

/-- An externally triggered pool action: advance an in-flight coroutine,
start a new `assign_task`, start an `execute_parallel_tasks` batch
(its `get_idle_workers` segment spawns one `assign_task` per zipped
pair), take a status snapshot, or run the mutating segment of
`shutdown` (lines 329-330). -/
inductive PoolAct where
  | runProc (i : Nat)
  | spawnAssign (wid : Nat) (company prompt : String) (outcome : RemoteOutcome)
  | spawnParallel (tasks : List (String × String)) (outcomes : Nat → RemoteOutcome)
  | getStatus
  | shutdown

/-- Effect of one action on the system state.  `get_status` reads without
writing; `shutdown` marks every worker `Stopping` and leaves every other
field unchanged. -/
def poolStep (parseVal : String → String × String × String)
    (s : PoolSys) : PoolAct → PoolSys
  | .runProc i => stepProc parseVal s i
  | .spawnAssign wid company prompt outcome =>
    { s with procs := s.procs ++ [.assignStart wid company prompt outcome] }
  | .spawnParallel tasks outcomes =>
    let idle := get_idle_workers s.workers tasks.length
    if idle.isEmpty then s
    else
      { s with procs := s.procs ++ (idle.zip tasks).map (fun p =>
          .assignStart p.1.config.worker_id p.2.1 p.2.2 (outcomes p.1.config.worker_id)) }
  | .getStatus => s
  | .shutdown =>
    { s with workers := wmapAll s.workers (fun w => { w with status := .stopping }) }

/-- Pool state right after `initialize` (lines 64-81): `size` workers in
`Starting` state and one pending health probe per worker, each probe's
HTTP outcome given by `probeOutcomes`. -/
def initPool (size : Nat) (probeOutcomes : Nat → RemoteOutcome) : PoolSys :=
  { workers := (List.range size).map (fun i =>
      (i + 1, { config := generate_worker_config (i + 1)
                status := .starting,
                current_task := none, assigned_company := none }))
    procs := (List.range size).map (fun i => .probeStart (i + 1) (probeOutcomes (i + 1))) }

/-- Run a schedule of actions. -/
def runPool (parseVal : String → String × String × String) :
    PoolSys → List PoolAct → PoolSys
  | s, [] => s
  | s, a :: rest => runPool parseVal (poolStep parseVal s a) rest

/-- Whether a schedule contains a `shutdown` action. -/
def hasShutdown : List PoolAct → Bool
  | [] => false
  | .shutdown :: _ => true
  | _ :: rest => hasShutdown rest

/-- Number of in-flight assignments for worker `wid` (coroutines that
passed the idleness check, marked the worker `Running`, and have not yet
run their `finally` release). -/
def inflight (ps : List PoolProc) (wid : Nat) : Nat :=
  ps.countP (fun p => match p with
    | .assignWait w _ _ _ => w = wid
    | _ => false)

/-- Number of pending health probes for worker `wid`. -/
def probes (ps : List PoolProc) (wid : Nat) : Nat :=
  ps.countP (fun p => match p with
    | .probeStart w _ => w = wid
    | .probeWait w _ => w = wid
    | _ => false)

/-! ## Swarm coordinator (`src/services/python-agent/orchestrator.py`) -/

inductive TaskType where
  | pre_assigned | dynamic_discovery | comparative
deriving Repr, DecidableEq

inductive AgentStatus where
  | idle | working | done | error
deriving Repr, DecidableEq

/-- Enum value strings (`.value`), as serialized by `get_status`. -/
def AgentStatus.valueStr : AgentStatus → String
  | .idle => "idle"
  | .working => "working"
  | .done => "done"
  | .error => "error"

def TaskType.valueStr : TaskType → String
  | .pre_assigned => "pre_assigned"
  | .dynamic_discovery => "dynamic_discovery"
  | .comparative => "comparative"

/-- `TaskPlan` dataclass.  `target_count` is a Python `int` and may be
anything the planning oracle returned, hence `Int`. -/
structure TaskPlan where
  task_type : TaskType
  original_prompt : String
  target_count : Int
  sub_tasks : List String := []
  base_task : String := ""
  comparison_criteria : String := ""
deriving Repr, DecidableEq

/-- `AgentResult` dataclass. -/
structure AgentResult where
  agent_id : Nat
  claimed_item : Option String
  result : String
  status : AgentStatus
  error : Option String := none
deriving Repr, DecidableEq

/-- Mutable coordinator state (the fields of `Orchestrator` touched by the
claims; the Gemini handle, HTTP client and status callback are elided).
`claimed_items` is a Python set, modelled as a duplicate-free list in
insertion order; `agent_results` and `agent_statuses` are dicts in
insertion order. -/
structure OrchState where
  worker_count : Nat
  claimed_items : List String := []
  agent_results : List (Nat × AgentResult) := []
  agent_statuses : List (Nat × AgentStatus) := []
  current_plan : Option TaskPlan := none

/-- Association-list lookup (Python `dict.get` / `in`). -/
def alookup {α : Type} : List (Nat × α) → Nat → Option α
  | [], _ => none
  | (k, v) :: t, key => if k = key then some v else alookup t key

/-- Python dict assignment `d[k] = v`: overwrite in place if the key is
present (a Python dict keeps the key's original position), append
otherwise. -/
def dictSet {α : Type} (l : List (Nat × α)) (k : Nat) (v : α) : List (Nat × α) :=
  if (alookup l k).isSome then l.map (fun p => if p.1 = k then (k, v) else p)
  else l ++ [(k, v)]

/-- Label normalization used by `claim_item` (line 165):
`item.lower().strip()`. -/
def normalizeLabel (item : String) : String := pyStrip (pyLower item)

/-- Insertion into the claim set (`self.claimed_items.add(normalized)`,
line 173). -/
def claim_insert (st : OrchState) (normalized : String) : OrchState :=
  { st with claimed_items := st.claimed_items ++ [normalized] }

/-- The status-update step of `claim_item` (lines 177-178): if the agent
already has a result entry, stamp the claimed item onto it. -/
def claim_update_result (st : OrchState) (agent_id : Nat) (item : String) : OrchState :=
  if (alookup st.agent_results agent_id).isSome then
    { st with agent_results := st.agent_results.map (fun p =>
        if p.1 = agent_id then (p.1, { p.2 with claimed_item := some item }) else p) }
  else st

/-- `Orchestrator.claim_item` (lines 161-181): under the claims lock,
reject if the normalized label is already claimed, otherwise insert it,
and if the requesting agent already has a result entry update that entry's
`claimed_item`.  Returns the approval flag with the new state. -/
def claim_item (st : OrchState) (agent_id : Nat) (item : String) : Bool × OrchState :=
  if normalizeLabel item ∈ st.claimed_items then
    (false, st)
  else
    (true, claim_update_result (claim_insert st (normalizeLabel item)) agent_id item)

/-- `Orchestrator.submit_result` (lines 183-193). -/
def submit_result (st : OrchState) (agent_id : Nat) (result : String)
    (claimed_item : Option String) : OrchState :=
  { st with
    agent_results := dictSet st.agent_results agent_id
      { agent_id := agent_id, claimed_item := claimed_item, result := result
        status := .done }
    agent_statuses := dictSet st.agent_statuses agent_id .done }

/-- `Orchestrator.submit_error` (lines 195-206). -/
def submit_error (st : OrchState) (agent_id : Nat) (err : String) : OrchState :=
  { st with
    agent_results := dictSet st.agent_results agent_id
      { agent_id := agent_id, claimed_item := none, result := ""
        status := .error, error := some err }
    agent_statuses := dictSet st.agent_statuses agent_id .error }

/-! ### `_extract_claimed_item`: the regex
`re.search(r"CLAIM:\s*(.+?)(?:\n|$)", result, re.IGNORECASE)` -/

/-- Lazy capture group `(.+?)(?:\n|$)`: `.` excludes newlines, so the only
viable capture at a given start is the maximal newline-free run there, and
it must be non-empty. -/
def lazyCapture (cs : List Char) : Option (List Char) :=
  let cap := cs.takeWhile (fun c => c ≠ '\n')
  if cap.isEmpty then none else some cap

/-- Greedy `\s*` with backtracking: try the maximal whitespace run first,
then shorter runs until the capture group can match. -/
def wsBacktrack (cs : List Char) : Nat → Option (List Char)
  | 0 => lazyCapture cs
  | k + 1 =>
    match lazyCapture (cs.drop (k + 1)) with
    | some cap => some cap
    | none => wsBacktrack cs k

/-- Attempt to match `CLAIM:\s*(.+?)(?:\n|$)` (case-insensitively) at the
head of `cs`, returning the capture group. -/
def matchClaimAt (cs : List Char) : Option (List Char) :=
  if (cs.take 6).map pyLowerChar = "claim:".data then
    let after := cs.drop 6
    wsBacktrack after (after.takeWhile pyIsSpace).length
  else none

/-- Leftmost `re.search` over the whole text. -/
def searchClaim : List Char → Option (List Char)
  | [] => matchClaimAt []
  | c :: t =>
    match matchClaimAt (c :: t) with
    | some cap => some cap
    | none => searchClaim t

/-- `Orchestrator._extract_claimed_item` (lines 344-354):
`match.group(1).strip()` when the pattern matches, `None` otherwise. -/
def extract_claimed_item (result : String) : Option String :=
  (searchClaim result.data).map (fun cap => pyStrip (String.mk cap))

/-! ### `parse_prompt` (lines 85-159) -/

/-- The ```` ```json ```` fence extraction of lines 129-135, with Python
`find`/slice semantics: an unterminated fence yields `find = -1` and the
slice `text[start:-1]` drops the final character. -/
def extract_json_str (text : String) : String :=
  let cs := text.data
  match findSub "```json".data cs with
  | some i =>
    let start := i + 7
    let stop : Nat :=
      match findSubFrom "```".data cs start with
      | some j => j
      | none => cs.length - 1
    String.mk (pyStripL (sliceL cs start stop))
  | none =>
    let stripped := pyStripL cs
    if stripped.take 1 = ['\x7b'] then String.mk stripped else text

/-- `data["task_type"]`: raises `KeyError`/`TypeError` unless `data` is a
dict with the key. -/
def objIndex (j : Json) (key : String) : Except String Json :=
  match j with
  | .obj fs =>
    match jlookup fs key with
    | some v => .ok v
    | none => .error ("KeyError: " ++ key)
  | _ => .error "TypeError: not subscriptable"

/-- `data.get(key, default)`: raises `AttributeError` on a non-dict. -/
def objGetD (j : Json) (key : String) (dflt : Json) : Except String Json :=
  match j with
  | .obj fs => .ok ((jlookup fs key).getD dflt)
  | _ => .error "AttributeError: object has no attribute get"

/-- `TaskType(value)`: `ValueError` unless the value is one of the three
member strings. -/
def taskTypeOfJson : Json → Except String TaskType
  | .str "pre_assigned" => .ok .pre_assigned
  | .str "dynamic_discovery" => .ok .dynamic_discovery
  | .str "comparative" => .ok .comparative
  | _ => .error "ValueError: not a valid TaskType"

/-- Coercion of a decoded value to a Python `int` where the code does
arithmetic/comparison on it (`bool` is an `int` in Python); anything else
raises `TypeError`. -/
def asInt : Json → Except String Int
  | .num n => .ok n
  | .bool b => .ok (if b then 1 else 0)
  | _ => .error "TypeError: int expected"

/-- Coercion of a decoded value to `str`.  The Python dataclass would
accept any object here; this typed embedding requires the field to be a
string and routes other shapes to the fallback, which only widens the
failure set quantified over by the fallback claim. -/
def asStr : Json → Except String String
  | .str s => .ok s
  | _ => .error "TypeError: str expected"

/-- Coercion of a decoded value to a list of strings (see `asStr`). -/
def asStrList : Json → Except String (List String)
  | .arr xs => xs.mapM asStr
  | _ => .error "TypeError: list expected"

/-- The `try` body of `Orchestrator.parse_prompt` (lines 124-149):
`oracle` is the outcome of the Gemini call (`.error` = the call raised)
and `jloads` the external `json.loads` decoder.  Any `.error` is what the
`except` of line 151 catches. -/
def plan_attempt (worker_count : Nat) (prompt : String)
    (oracle : Except String String) (jloads : String → Except String Json) :
    Except String TaskPlan := do
  let response_text ← oracle
  let json_str := extract_json_str response_text
  let data ← jloads json_str
  let ttv ← objIndex data "task_type"
  let task_type ← taskTypeOfJson ttv
  let tcv ← objGetD data "target_count" (.num 1)
  let tc ← asInt tcv
  let subsv ← objGetD data "sub_tasks" (.arr [])
  let sub_tasks ← asStrList subsv
  let basev ← objGetD data "base_task" (.str "")
  let base_task ← asStr basev
  let critv ← objGetD data "comparison_criteria" (.str "")
  let criteria ← asStr critv
  .ok { task_type := task_type, original_prompt := prompt
        target_count := min tc (worker_count : Int)
        sub_tasks := sub_tasks, base_task := base_task
        comparison_criteria := criteria }

/-- `Orchestrator.parse_prompt`: the `try` body, with the fallback plan of
lines 153-159 on any raised error. -/
def parse_prompt (worker_count : Nat) (prompt : String)
    (oracle : Except String String) (jloads : String → Except String Json) : TaskPlan :=
  match plan_attempt worker_count prompt oracle jloads with
  | .ok plan => plan
  | .error _ =>
    { task_type := .pre_assigned, original_prompt := prompt
      target_count := 1, sub_tasks := [prompt] }

/-! ### `synthesize` (lines 208-252) -/

/-- Heading label of one result:
`r.claimed_item or f"Agent {r.agent_id}"` — Python `or` falls through on
a falsy (empty) claimed item. -/
def synthLabel (r : AgentResult) : String :=
  match r.claimed_item with
  | some c => if c = "" then "Agent " ++ toString r.agent_id else c
  | none => "Agent " ++ toString r.agent_id

/-- The `Done` results of the current run, in dict insertion order. -/
def doneResults (st : OrchState) : List AgentResult :=
  (st.agent_results.map Prod.snd).filter (fun r => r.status = .done)

/-- The `results_text` block of lines 219-222. -/
def resultsText (rs : List AgentResult) : String :=
  joinSep "\n\n" (rs.map (fun r => "### " ++ synthLabel r ++ "\n" ++ r.result))

/-- `Orchestrator.synthesize`: `oracle` is the outcome of the Gemini
synthesis call on the mode-specific prompt (the prompt text itself is the
oracle's input and is elided).  On a raised oracle error the fallback of
line 252 returns the plain concatenation under a `## Results` heading. -/
def synthesize (st : OrchState) (oracle : Except String String) : String :=
  match st.current_plan with
  | none => "No task plan found."
  | some _ =>
    let results := doneResults st
    if results.isEmpty then "No results collected from agents."
    else
      match oracle with
      | .ok text => text
      | .error _ => "## Results\n\n" ++ resultsText results

/-! ### `execute_swarm` (lines 254-295) and `get_status` (lines 362-379) -/

/-- `_build_dynamic_task_prompt` (lines 297-314).  The claimed-label list
is rendered in the model's insertion order; Python renders the set in an
unspecified order, and no claim inspects this text. -/
def build_dynamic_task_prompt (st : OrchState) (plan : TaskPlan) (agent_id : Nat) : String :=
  let claimed_list := if st.claimed_items.isEmpty then "none yet"
    else joinSep ", " st.claimed_items
  plan.base_task ++
    "\n\nIMPORTANT: Before researching any company, you must claim it first to avoid duplicates.\nAlready claimed by other agents: " ++
    claimed_list ++
    "\n\nTo claim a company, include in your response:\nCLAIM: <company name>\n\nOnly proceed with research after your claim is confirmed.\nIf your claim is rejected (company already taken), try a different company.\n\nYou are Agent " ++
    toString agent_id ++ " of " ++ toString plan.target_count ++ "."

/-- Task prompt of loop index `i` (agent `i + 1`) in the dispatch loop of
lines 270-284: position `i` of `sub_tasks` for a pre-assigned plan
(`none` = the `continue` of line 279), the shared dynamic prompt
otherwise. -/
def taskFor (plan : TaskPlan) (st : OrchState) (i : Nat) : Option String :=
  match plan.task_type with
  | .pre_assigned => plan.sub_tasks.get? i
  | _ => some (build_dynamic_task_prompt st plan (i + 1))

/-- The dispatch loop of lines 269-284 over the given loop indices: mark
each agent `Working`, and collect the `(agent_id, task_prompt)` pairs that
are actually dispatched (an out-of-range pre-assigned index is marked
`Working` but contributes no task). -/
def swarmDispatch (plan : TaskPlan) : OrchState → List Nat → OrchState × List (Nat × String)
  | st, [] => (st, [])
  | st, i :: rest =>
    let st' := { st with agent_statuses := dictSet st.agent_statuses (i + 1) .working }
    match taskFor plan st' i with
    | some prompt =>
      ((swarmDispatch plan st' rest).1, (i + 1, prompt) :: (swarmDispatch plan st' rest).2)
    | none => swarmDispatch plan st' rest

/-- Observable behaviour of one remote agent during its
`_execute_agent_task`: the labels it requests through the
`POST /swarm/claim` endpoint (`src/services/python-agent/main.py` lines
494-509, which call `claim_item`), followed by the outcome of the
orchestrator's `POST /execute` call to it. -/
structure AgentBehavior where
  claims : List String
  outcome : RemoteOutcome

/-- The response text reaching `submit_result` inside
`_execute_agent_task` (lines 316-342): on HTTP 200,
`response.json().get("response", "")` (a decode failure or non-string
payload raises and is caught by the enclosing `except`); on any other
status the error is `"HTTP {code}"`; a transport exception carries
`str(e)`. -/
def execResponseText : RemoteOutcome → Except String String
  | .resp 200 (.ok j) => responseFieldStr j
  | .resp 200 (.error e) => .error e
  | .resp code _ => .error ("HTTP " ++ toString code)
  | .exc e => .error e

/-- One agent's full interaction: its claim requests (each a `claim_item`
call under the claims lock), then the completion path of
`_execute_agent_task` — `submit_result` with the regex-extracted claimed
item on success, `submit_error` otherwise. -/
def runAgentTask (st : OrchState) (agent_id : Nat) (b : AgentBehavior) : OrchState :=
  let st := b.claims.foldl (fun s item => (claim_item s agent_id item).2) st
  match execResponseText b.outcome with
  | .ok text => submit_result st agent_id text (extract_claimed_item text)
  | .error e => submit_error st agent_id e

/-- The state reset of `execute_swarm` lines 256-259 together with the
`current_plan` assignment of line 262 (the planning call between them
reads none of this state). -/
def swarm_reset (st : OrchState) (plan : TaskPlan) : OrchState :=
  { st with claimed_items := [], agent_results := [], agent_statuses := []
            current_plan := some plan }

/-- The `asyncio.gather` of `execute_swarm` line 289 over the dispatched
agent tasks, modelled by running them in order: each task only touches
its own agent's entries in the result/status maps, and claim arbitration
is serialized by the claims lock in every schedule. -/
def runTasks (behaviors : Nat → AgentBehavior) :
    OrchState → List (Nat × String) → OrchState
  | s, [] => s
  | s, t :: rest => runTasks behaviors (runAgentTask s t.1 (behaviors t.1)) rest

/-- `Orchestrator.execute_swarm` (lines 254-295): reset the run state,
plan, dispatch, run all agent tasks, then synthesize. -/
def execute_swarm (worker_count : Nat) (prompt : String)
    (planOracle : Except String String) (jloads : String → Except String Json)
    (behaviors : Nat → AgentBehavior) (synthOracle : Except String String)
    (st : OrchState) : String × OrchState :=
  let plan := parse_prompt worker_count prompt planOracle jloads
  let final := runTasks behaviors
    (swarmDispatch plan (swarm_reset st plan) (List.range plan.target_count.toNat)).1
    (swarmDispatch plan (swarm_reset st plan) (List.range plan.target_count.toNat)).2
  (synthesize final synthOracle, final)

/-- Per-agent entry of the `get_status` snapshot (lines 371-378). -/
structure AgentStatusEntry where
  status : String
  claimed_item : Option String
  has_result : Bool
deriving Repr, DecidableEq

/-- `Orchestrator.get_status`: the `agents` map of the snapshot.  The
claimed item defaults through `AgentResult(agent_id, None, "", IDLE)`
when the agent has no result entry; `has_result` additionally requires
`Done` status. -/
def get_status_agents (st : OrchState) : List (Nat × AgentStatusEntry) :=
  st.agent_statuses.map (fun p =>
    (p.1,
      { status := p.2.valueStr
        claimed_item := match alookup st.agent_results p.1 with
          | some r => r.claimed_item
          | none => none
        has_result := match alookup st.agent_results p.1 with
          | some r => r.status = .done
          | none => false }))

/-! ## Automation protocol client (`src/services/python-agent/mcp_client.py`)

The HTTP transport is modelled as a scripted list of responses consumed in
order, one per `POST` (requests and notifications alike).  An exhausted
script behaves like a raised transport exception.  For a 200 response the
script carries either the decode outcome of `response.json()`
(`okJsonBody`) or, for the `text/event-stream` content type, the value
that `_parse_sse_response` extracts from the stream (`okSse`;
`_parse_sse_response` itself cannot raise — every `json.loads` inside it
is guarded by `continue` — so only its result is relevant here). -/

/-- Kind of one scripted transport response. -/
inductive RespKind where
  /-- 200 with `text/event-stream` content; the payload extracted by
  `_parse_sse_response` (`none` when no terminal `data:` event parses or
  the stream carried an error). -/
  | okSse (parsed : Option Json)
  /-- 200 with JSON content; the outcome of `response.json()`. -/
  | okJsonBody (decoded : Except String Json)
  /-- 202 Accepted. -/
  | accepted
  /-- Any other HTTP status code. -/
  | status (code : Nat)
  /-- The `POST` itself raised (network error, timeout). -/
  | raise (msg : String)

/-- One scripted transport response; `sessionHdr` is the
`mcp-session-id` response header, unreadable when the `POST` raised. -/
structure HttpResp where
  sessionHdr : Option String := none
  kind : RespKind

/-- Client fields of `MCPClient` relevant to the claims: whether
`connect()` created the HTTP client, the cached session token and the
request counter. -/
structure MCPState where
  connected : Bool
  sessionId : Option String := none
  requestId : Nat := 0

/-- A record of one `POST` made by the client: the JSON-RPC method and the
session token attached in the `Mcp-Session-Id` header at that moment. -/
structure LogEntry where
  method : String
  session : Option String
deriving Repr, DecidableEq

/-- Client state together with the remaining transport script and the log
of performed `POST`s. -/
structure SendState where
  cl : MCPState
  tx : List HttpResp
  log : List LogEntry

/-- `"error" in result` for the decoded JSON-RPC envelope: key test on a
dict, substring test on a string, membership test on a list, `TypeError`
otherwise. -/
def pyInError : Json → Except String Bool
  | .obj fs => .ok (jlookup fs "error").isSome
  | .str s => .ok (findSub "error".data s.data).isSome
  | .arr xs => .ok (xs.any (fun x => match x with | .str s => s = "error" | _ => false))
  | _ => .error "TypeError: argument of type is not iterable"

/-- `result.get("result")` on the decoded envelope (`AttributeError` on a
non-dict). -/
def envelopeResult : Json → Except String (Option Json)
  | .obj fs => .ok (jlookup fs "result")
  | _ => .error "AttributeError: object has no attribute get"

/-- Store the `mcp-session-id` response header if present (mcp_client.py
lines 235-237). -/
def storeHdr (cl : MCPState) (r : HttpResp) : MCPState :=
  match r.sessionHdr with
  | some sid => { cl with sessionId := some sid }
  | none => cl

/-- Payload extracted from a decoded 200 JSON body (mcp_client.py lines
246-251): `None` if the envelope carries an `error` member, if the
truthiness test raised, or if `result.get` raised on a non-dict;
otherwise the envelope's `result` member.  Each raising path is caught by
the enclosing `except` and so also yields `None`. -/
def jsonEnvelopePayload (j : Json) : Option Json :=
  match pyInError j with
  | .error _ => none
  | .ok true => none
  | .ok false =>
    match envelopeResult j with
    | .error _ => none
    | .ok v => v

/-- Body of `MCPClient._send_request` (lines 205-268), parameterized by
the handler run in the `404 and retry_on_session_error` branch.  The
result is `.error` exactly when the Python method raises to its caller:
the only such path is the `RuntimeError` of line 208, raised before the
`try`.  Every path inside the `try` (including the transport script
running dry) is caught by the `except` of line 266 and yields `.ok`. -/
def send_request_base (s : SendState) (method : String)
    (on404 : SendState → Except String (Option Json) × SendState) :
    Except String (Option Json) × SendState :=
  if s.cl.connected = false then
    (.error "MCP client not connected", s)
  else
    let cl := { s.cl with requestId := s.cl.requestId + 1 }
    let log := s.log ++ [{ method := method, session := cl.sessionId }]
    match s.tx with
    | [] => (.ok none, { cl := cl, tx := [], log := log })
    | r :: rest =>
      match r.kind with
      | .raise _ => (.ok none, { cl := cl, tx := rest, log := log })
      | .okSse parsed =>
        (.ok parsed, { cl := storeHdr cl r, tx := rest, log := log })
      | .okJsonBody (.error _) =>
        (.ok none, { cl := storeHdr cl r, tx := rest, log := log })
      | .okJsonBody (.ok j) =>
        (.ok (jsonEnvelopePayload j), { cl := storeHdr cl r, tx := rest, log := log })
      | .accepted =>
        (.ok none, { cl := storeHdr cl r, tx := rest, log := log })
      | .status code =>
        let s' : SendState := { cl := storeHdr cl r, tx := rest, log := log }
        if code = 404 then on404 s' else (.ok none, s')

/-- `_send_request` with `retry_on_session_error=False`: a 404 falls into
the final `else` branch and returns `None`. -/
def send_request0 (s : SendState) (method : String) :
    Except String (Option Json) × SendState :=
  send_request_base s method (fun s' => (.ok none, s'))

/-- `MCPClient._send_notification` (lines 301-327): returns silently when
not connected, otherwise posts (consuming one scripted response, any
exception caught); the response headers are not read. -/
def send_notification (s : SendState) (method : String) : SendState :=
  if s.cl.connected = false then s
  else
    { s with tx := s.tx.drop 1
             log := s.log ++ [{ method := method, session := s.cl.sessionId }] }

/-- `MCPClient._reinitialize_session` (lines 270-284): an `initialize`
request without session retry, then the `initialized` notification; the
whole body is wrapped in `try/except`. -/
def reinit_session (s : SendState) : SendState :=
  match send_request0 s "initialize" with
  | (.error _, s1) => s1
  | (.ok _, s1) => send_notification s1 "notifications/initialized"

/-- The `404 and retry_on_session_error` branch of `_send_request`
(mcp_client.py lines 256-261): clear the session token, re-initialize the
session, and re-send the original request once with the retry flag off;
an exception from the nested call would be caught by the enclosing `try`
(it cannot occur while connected). -/
def retry404 (method : String) (s' : SendState) :
    Except String (Option Json) × SendState :=
  match send_request0
      (reinit_session { s' with cl := { s'.cl with sessionId := none } }) method with
  | (.error _, s3) => (.ok none, s3)
  | (.ok v, s3) => (.ok v, s3)

/-- `_send_request` with `retry_on_session_error=True` (the default used
by every request `connect` and `call_tool` issue). -/
def send_request1 (s : SendState) (method : String) :
    Except String (Option Json) × SendState :=
  send_request_base s method (retry404 method)

/-- Image content parsed from an MCP content dict. -/
structure MCPImageContent where
  data : List Nat
  mime_type : String

/-- Structured result of a tool call (`MCPToolResult`). -/
structure MCPToolResult where
  text_content : List String := []
  images : List MCPImageContent := []
  raw_result : Json := .obj []
  error : Option String := none

/-- `MCPImageContent.from_mcp_content` (lines 25-36) on a content dict:
`b64` is the external `base64.b64decode` (`none` = it raised, caught by
the `except` of line 34).  The mime type falls back through
`content.get("mimeType", "image/png")`; a non-string value would be
stored as-is and is rendered with `Json.asText`. -/
def from_mcp_content (b64 : String → Option (List Nat))
    (fields : List (String × Json)) : Option MCPImageContent :=
  match jlookup fields "type" with
  | some (.str "image") =>
    let mime := match jlookup fields "mimeType" with
      | some v => v.asText
      | none => "image/png"
    match (jlookup fields "data").getD (.str "") with
    | .str s => (b64 s).map (fun bytes => { data := bytes, mime_type := mime })
    | _ => none
  | _ => none

/-- One iteration of the content loop of `from_mcp_response`
(lines 61-74). -/
def contentStep (b64 : String → Option (List Nat)) (acc : MCPToolResult)
    (content : Json) : MCPToolResult :=
  match content with
  | .obj fs =>
    match (jlookup fs "type").getD (.str "text") with
    | .str "text" =>
      { acc with text_content := acc.text_content ++
          [((jlookup fs "text").getD (.str "")).asText] }
    | .str "image" =>
      match from_mcp_content b64 fs with
      | some img => { acc with images := acc.images ++ [img] }
      | none => acc
    | _ => acc
  | other => { acc with text_content := acc.text_content ++ [other.asText] }

/-- `MCPToolResult.from_mcp_response` (lines 47-76).  The `.error` cases
are the raises the Python code performs on a non-dict argument: a string
containing `"error"` hits `result["error"]` (`TypeError`), any other
non-dict hits either the `in` test or `.get` — none of these raises is
caught inside `call_tool`. -/
def from_mcp_response (b64 : String → Option (List Nat)) (result : Json) :
    Except String MCPToolResult :=
  match result with
  | .obj fs =>
    match jlookup fs "error" with
    | some e => .ok { raw_result := result, error := some e.asText }
    | none =>
      let content_list := match jlookup fs "content" with
        | some (.arr xs) => xs
        | some other => [other]
        | none => []
      .ok (content_list.foldl (contentStep b64)
        { raw_result := result })
  | .str s =>
    if (findSub "error".data s.data).isSome then
      .error "TypeError: string indices must be integers"
    else .error "AttributeError: object has no attribute get"
  | .arr _ => .error "TypeError: list indices must be integers"
  | _ => .error "TypeError: argument of type is not iterable"

/-- `MCPClient.call_tool` (lines 329-338): sends `tools/call` (with the
default session retry) and wraps the payload; a falsy payload yields the
fallback error result.  `call_tool` itself has no `try`, so an `.error`
from `send_request1` (the not-connected `RuntimeError`) or from
`from_mcp_response` (a truthy non-dict payload) propagates to the caller.
The `arguments` dict is part of the request body and does not influence
the modelled control flow. -/
def call_tool (s : SendState) (tool_name : String) (arguments : Json)
    (b64 : String → Option (List Nat)) : Except String MCPToolResult × SendState :=
  let _ := arguments
  match send_request1 s "tools/call" with
  | (.error m, s') => (.error m, s')
  | (.ok none, s') =>
    (.ok { error := some ("Failed to execute tool: " ++ tool_name) }, s')
  | (.ok (some j), s') =>
    if j.truthy then
      match from_mcp_response b64 j with
      | .ok tr => (.ok tr, s')
      | .error m => (.error m, s')
    else
      (.ok { error := some ("Failed to execute tool: " ++ tool_name) }, s')

/-! ## Supporting lemmas: the worker registry -/

theorem wlookup_wupdate (pool : Workers) (wid : Nat) (f : WorkerInstance → WorkerInstance) :
    wlookup (wupdate pool wid f) wid = (wlookup pool wid).map f := by
  induction pool with
  | nil => rfl
  | cons p t ih =>
    obtain ⟨k, w⟩ := p
    by_cases h : k = wid
    · subst h
      rw [wupdate, if_pos rfl, wlookup, if_pos rfl, wlookup, if_pos rfl]
      rfl
    · rw [wupdate, if_neg h, wlookup, if_neg h, wlookup, if_neg h]
      exact ih

theorem wlookup_wupdate_ne (pool : Workers) (wid wid' : Nat)
    (f : WorkerInstance → WorkerInstance) (h : wid' ≠ wid) :
    wlookup (wupdate pool wid f) wid' = wlookup pool wid' := by
  induction pool with
  | nil => rfl
  | cons p t ih =>
    obtain ⟨k, w⟩ := p
    by_cases hk : k = wid
    · subst hk
      rw [wupdate, if_pos rfl, wlookup,
        if_neg (fun hh : k = wid' => h hh.symm), wlookup,
        if_neg (fun hh : k = wid' => h hh.symm)]
      exact ih
    · rw [wupdate, if_neg hk]
      by_cases hk' : k = wid'
      · rw [wlookup, if_pos hk', wlookup, if_pos hk']
      · rw [wlookup, if_neg hk', wlookup, if_neg hk']
        exact ih

/-- Branch equation of `assign_task`: unknown worker id. -/
theorem assign_task_eq_not_found (parseVal : String → String × String × String)
    (pool : Workers) (wid : Nat) (company prompt : String) (outcome : RemoteOutcome)
    (hw : wlookup pool wid = none) :
    assign_task parseVal pool wid company prompt outcome =
      (failedResult wid company ("Worker " ++ toString wid ++ " not found"), pool) := by
  unfold assign_task
  rw [hw]

/-- Branch equation of `assign_task`: worker present but not idle. -/
theorem assign_task_eq_not_idle (parseVal : String → String × String × String)
    (pool : Workers) (wid : Nat) (company prompt : String) (outcome : RemoteOutcome)
    (w : WorkerInstance) (hw : wlookup pool wid = some w) (hs : w.status ≠ .idle) :
    assign_task parseVal pool wid company prompt outcome =
      (failedResult wid company
        ("Worker " ++ toString wid ++ " is not idle (status: " ++
          w.status.valueStr ++ ")"), pool) := by
  unfold assign_task
  rw [hw]
  show (if w.status ≠ WorkerStatus.idle then _ else _) = _
  rw [if_pos hs]

/-- Branch equation of `assign_task`: idle worker, full mark/call/release
cycle. -/
theorem assign_task_eq_idle (parseVal : String → String × String × String)
    (pool : Workers) (wid : Nat) (company prompt : String) (outcome : RemoteOutcome)
    (w : WorkerInstance) (hw : wlookup pool wid = some w) (hidle : w.status = .idle) :
    assign_task parseVal pool wid company prompt outcome =
      (assign_result parseVal wid company outcome,
        wupdate
          (wupdate pool wid (fun w =>
            { w with status := .running
                     current_task := some prompt
                     assigned_company := some company }))
          wid (fun w =>
            { w with status := .idle, current_task := none, assigned_company := none })) := by
  unfold assign_task
  rw [hw]
  show (if w.status ≠ WorkerStatus.idle then _ else _) = _
  rw [if_neg (by simp [hidle])]

/-- Every branch of `assign_result` stamps the requested worker id and
company name into the result. -/
theorem assign_result_fields (parseVal : String → String × String × String)
    (wid : Nat) (company : String) (outcome : RemoteOutcome) :
    (assign_result parseVal wid company outcome).worker_id = wid ∧
    (assign_result parseVal wid company outcome).company_name = company := by
  unfold assign_result
  split
  · split
    · exact ⟨rfl, rfl⟩
    · exact ⟨rfl, rfl⟩
  · exact ⟨rfl, rfl⟩
  · exact ⟨rfl, rfl⟩
  · exact ⟨rfl, rfl⟩

/-- Every branch of `assign_task` stamps the requested worker id and
company name into the returned result. -/
theorem assign_task_fields (parseVal : String → String × String × String)
    (pool : Workers) (wid : Nat) (company prompt : String) (outcome : RemoteOutcome) :
    (assign_task parseVal pool wid company prompt outcome).1.worker_id = wid ∧
    (assign_task parseVal pool wid company prompt outcome).1.company_name = company := by
  cases hw : wlookup pool wid with
  | none =>
    rw [assign_task_eq_not_found parseVal pool wid company prompt outcome hw]
    exact ⟨rfl, rfl⟩
  | some w =>
    by_cases hs : w.status = .idle
    · rw [assign_task_eq_idle parseVal pool wid company prompt outcome w hw hs]
      exact assign_result_fields parseVal wid company outcome
    · rw [assign_task_eq_not_idle parseVal pool wid company prompt outcome w hw hs]
      exact ⟨rfl, rfl⟩

/-- C1.  Guaranteed release: for a worker that exists and is `Idle` when
`assign_task` is called, after the call completes — whatever the remote
call's outcome (HTTP 200, non-200 status, decode failure, raised
exception or timeout) — the worker is `Idle` with `current_task` and
`assigned_company` both cleared (the `finally` block of worker_pool.py
lines 206-211). -/
theorem assign_task_guaranteed_release
    (parseVal : String → String × String × String) (pool : Workers)
    (wid : Nat) (company prompt : String) (outcome : RemoteOutcome)
    (w : WorkerInstance) (hw : wlookup pool wid = some w) (hidle : w.status = .idle) :
    ∃ w', wlookup (assign_task parseVal pool wid company prompt outcome).2 wid = some w' ∧
      w'.status = .idle ∧ w'.current_task = none ∧ w'.assigned_company = none := by
  rw [assign_task_eq_idle parseVal pool wid company prompt outcome w hw hidle]
  show ∃ w', wlookup (wupdate (wupdate pool wid _) wid _) wid = some w' ∧ _
  rw [wlookup_wupdate, wlookup_wupdate, hw]
  exact ⟨_, rfl, rfl, rfl, rfl⟩

/-- Witness for C1: a pool of one idle worker, a remote call that times
out; the worker ends `Idle` with both assignment fields cleared. -/
theorem assign_task_guaranteed_release_witness :
    ∃ w', wlookup (assign_task (fun _ => ("Unknown", "Unknown", "Low"))
        [(1, { config := generate_worker_config 1, status := .idle })]
        1 "Stripe" "look up Stripe" (.exc "ReadTimeout")).2 1 = some w' ∧
      w'.status = .idle ∧ w'.current_task = none ∧ w'.assigned_company = none :=
  assign_task_guaranteed_release _ _ _ _ _ _ _ rfl rfl

/-! ## C5: the `ExecuteParallel` dispatch rule -/

theorem runAssignments_length (parseVal : String → String × String × String)
    (outcomes : Nat → RemoteOutcome) :
    ∀ (pairs : List (WorkerInstance × (String × String))) (pool : Workers),
      (runAssignments parseVal outcomes pool pairs).1.length = pairs.length := by
  intro pairs
  induction pairs with
  | nil => intro pool; rfl
  | cons p rest ih =>
    intro pool
    obtain ⟨w, tp⟩ := p
    show ((assign_task parseVal pool w.config.worker_id tp.1 tp.2
        (outcomes w.config.worker_id)).1 :: _).length = _
    rw [List.length_cons, ih]
    rfl

theorem runAssignments_get (parseVal : String → String × String × String)
    (outcomes : Nat → RemoteOutcome) :
    ∀ (pairs : List (WorkerInstance × (String × String))) (pool : Workers)
      (k : Nat) (w : WorkerInstance) (t : String × String),
      pairs.get? k = some (w, t) →
      ∃ r, (runAssignments parseVal outcomes pool pairs).1.get? k = some r ∧
        r.worker_id = w.config.worker_id ∧ r.company_name = t.1 := by
  intro pairs
  induction pairs with
  | nil => intro pool k w t h; simp at h
  | cons p rest ih =>
    intro pool k w t h
    obtain ⟨w', tp'⟩ := p
    cases k with
    | zero =>
      simp only [List.get?] at h
      injection h with h'
      injection h' with h1 h2
      subst h1
      subst h2
      exact ⟨_, rfl,
        (assign_task_fields parseVal pool _ _ _ _).1,
        (assign_task_fields parseVal pool _ _ _ _).2⟩
    | succ k' =>
      simp only [List.get?] at h
      obtain ⟨r, hr, h1, h2⟩ := ih _ k' w t h
      exact ⟨r, hr, h1, h2⟩

theorem zip_get?_of_get? {α β : Type} :
    ∀ (l1 : List α) (l2 : List β) (k : Nat) (a : α) (b : β),
      l1.get? k = some a → l2.get? k = some b → (l1.zip l2).get? k = some (a, b) := by
  intro l1
  induction l1 with
  | nil => intro l2 k a b h; simp at h
  | cons x t ih =>
    intro l2 k a b h1 h2
    cases l2 with
    | nil => simp at h2
    | cons y t2 =>
      cases k with
      | zero => simp_all
      | succ k' =>
        simp only [List.get?] at h1 h2 ⊢
        exact ih t2 k' a b h1 h2

/-- C5 counterexample: with no idle worker, the per-unit failure reason
written by `execute_parallel_tasks` (worker_pool.py line 273) is the
capitalized string `"No idle workers available"`, not
`"no idle workers available"` as the claim states. -/
theorem execute_parallel_reason_cex :
    ((execute_parallel_tasks (fun _ => ("", "", ""))
        [(1, { config := generate_worker_config 1, status := .error })]
        [("Acme", "research Acme")] (fun _ => .exc "n/a")).1.map TaskResult.error =
      [some "No idle workers available"]) ∧
    ((execute_parallel_tasks (fun _ => ("", "", ""))
        [(1, { config := generate_worker_config 1, status := .error })]
        [("Acme", "research Acme")] (fun _ => .exc "n/a")).1.map TaskResult.error ≠
      [some "no idle workers available"]) := by
  exact ⟨rfl, by decide⟩

/-- C5 as amended: when `get_idle_workers` returns no worker the call
returns one `Failed` result per unit with reason
`"No idle workers available"` (capital N, as written at worker_pool.py
line 273) and leaves the pool untouched; otherwise the currently idle
workers are paired 1:1 in order with the units, units beyond the number
of idle workers are dropped (the result list has exactly
`min #idle #units` entries), and each produced result carries the paired
worker's id and the paired unit's label. -/
theorem execute_parallel_dispatch_amended
    (parseVal : String → String × String × String) (pool : Workers)
    (tasks : List (String × String)) (outcomes : Nat → RemoteOutcome) :
    (get_idle_workers pool tasks.length = [] →
      (execute_parallel_tasks parseVal pool tasks outcomes).1 =
        tasks.map (fun t => failedResult 0 t.1 "No idle workers available") ∧
      (execute_parallel_tasks parseVal pool tasks outcomes).2 = pool) ∧
    (get_idle_workers pool tasks.length ≠ [] →
      (execute_parallel_tasks parseVal pool tasks outcomes).1.length =
        min ((pool.map Prod.snd).filter (fun w => w.status = .idle)).length tasks.length ∧
      ∀ k : Nat, k < (get_idle_workers pool tasks.length).length →
        ∃ r w t, (execute_parallel_tasks parseVal pool tasks outcomes).1.get? k = some r ∧
          (get_idle_workers pool tasks.length).get? k = some w ∧
          tasks.get? k = some t ∧
          r.worker_id = w.config.worker_id ∧ r.company_name = t.1) := by
  constructor
  · intro h
    unfold execute_parallel_tasks
    rw [h]
    exact ⟨rfl, rfl⟩
  · intro h
    have hne : (get_idle_workers pool tasks.length).isEmpty = false := by
      cases hg : get_idle_workers pool tasks.length with
      | nil => exact absurd hg h
      | cons a b => rfl
    constructor
    · unfold execute_parallel_tasks
      rw [hne]
      simp only [Bool.false_eq_true, if_false]
      rw [runAssignments_length]
      rw [List.length_zip]
      unfold get_idle_workers
      rw [List.length_take]
      omega
    · intro k hk
      have hkt : k < tasks.length := by
        have := List.length_take (tasks.length)
          ((pool.map Prod.snd).filter (fun w => w.status = .idle))
        unfold get_idle_workers at hk
        rw [List.length_take] at hk
        omega
      obtain ⟨w, hw⟩ : ∃ w, (get_idle_workers pool tasks.length).get? k = some w := by
        rw [List.get?_eq_get hk]; exact ⟨_, rfl⟩
      obtain ⟨t, ht⟩ : ∃ t, tasks.get? k = some t := by
        rw [List.get?_eq_get hkt]; exact ⟨_, rfl⟩
      have hz := zip_get?_of_get? _ _ k w t hw ht
      obtain ⟨r, hr, h1, h2⟩ := runAssignments_get parseVal outcomes
        ((get_idle_workers pool tasks.length).zip tasks) pool k w t hz
      refine ⟨r, w, t, ?_, hw, ht, h1, h2⟩
      unfold execute_parallel_tasks
      rw [hne]
      simpa using hr

/-- Witness for C5 (amended): a two-worker pool with one idle worker and
two units; the single idle worker is paired with the first unit, the
second unit is dropped. -/
theorem execute_parallel_dispatch_amended_witness :
    (execute_parallel_tasks (fun _ => ("", "", "Low"))
        [(1, { config := generate_worker_config 1, status := .idle }),
         (2, { config := generate_worker_config 2, status := .running })]
        [("Stripe", "p1"), ("Airbnb", "p2")] (fun _ => .resp 500 (.error "x"))).1.length = 1 ∧
    ∃ r w t, (execute_parallel_tasks (fun _ => ("", "", "Low"))
        [(1, { config := generate_worker_config 1, status := .idle }),
         (2, { config := generate_worker_config 2, status := .running })]
        [("Stripe", "p1"), ("Airbnb", "p2")] (fun _ => .resp 500 (.error "x"))).1.get? 0 = some r ∧
      (get_idle_workers
        [(1, { config := generate_worker_config 1, status := .idle }),
         (2, { config := generate_worker_config 2, status := .running })] 2).get? 0 = some w ∧
      [("Stripe", "p1"), ("Airbnb", "p2")].get? 0 = some t ∧
      r.worker_id = w.config.worker_id ∧ r.company_name = t.1 := by
  have h := execute_parallel_dispatch_amended (fun _ => ("", "", "Low"))
    [(1, { config := generate_worker_config 1, status := .idle }),
     (2, { config := generate_worker_config 2, status := .running })]
    [("Stripe", "p1"), ("Airbnb", "p2")] (fun _ => .resp 500 (.error "x"))
  refine ⟨?_, ?_⟩
  · exact (h.2 (by decide)).1
  · exact (h.2 (by decide)).2 0 (by decide)

/-! ## C3: claim-registry exclusivity -/

/-- A sequence of `claim_item` calls under the claims lock, in arrival
order: the list of approval flags together with the final state. -/
def runClaims : OrchState → List (Nat × String) → List Bool × OrchState
  | st, [] => ([], st)
  | st, (aid, item) :: rest =>
    let r := claim_item st aid item
    let rs := runClaims r.2 rest
    (r.1 :: rs.1, rs.2)

/-- A claim whose normalized label is already registered is rejected. -/
theorem claim_item_false_of_mem (st : OrchState) (aid : Nat) (item : String)
    (h : normalizeLabel item ∈ st.claimed_items) :
    (claim_item st aid item).1 = false := by
  unfold claim_item
  rw [if_pos h]

/-- The status-update step never touches the claim set. -/
theorem claim_update_result_claimed (st : OrchState) (aid : Nat) (item : String) :
    (claim_update_result st aid item).claimed_items = st.claimed_items := by
  unfold claim_update_result
  split
  · rfl
  · rfl

/-- An approved claim registers its normalized label. -/
theorem claim_item_true_mem (st : OrchState) (aid : Nat) (item : String)
    (h : (claim_item st aid item).1 = true) :
    normalizeLabel item ∈ (claim_item st aid item).2.claimed_items := by
  unfold claim_item at h ⊢
  by_cases hm : normalizeLabel item ∈ st.claimed_items
  · rw [if_pos hm] at h
    cases h
  · rw [if_neg hm]
    show normalizeLabel item ∈ (claim_update_result _ _ _).claimed_items
    rw [claim_update_result_claimed]
    exact List.mem_append_right _ (List.mem_singleton.mpr rfl)

/-- The claim registry only grows. -/
theorem claim_item_mono (st : OrchState) (aid : Nat) (item : String)
    (x : String) (h : x ∈ st.claimed_items) :
    x ∈ (claim_item st aid item).2.claimed_items := by
  unfold claim_item
  by_cases hm : normalizeLabel item ∈ st.claimed_items
  · rw [if_pos hm]
    exact h
  · rw [if_neg hm]
    show x ∈ (claim_update_result _ _ _).claimed_items
    rw [claim_update_result_claimed]
    exact List.mem_append_left _ h

/-- Once a normalized label is registered, every later claim of it in the
run is rejected. -/
theorem runClaims_mem_false :
    ∀ (reqs : List (Nat × String)) (st : OrchState) (j : Nat) (aj : Nat) (itemj : String),
      reqs.get? j = some (aj, itemj) →
      normalizeLabel itemj ∈ st.claimed_items →
      (runClaims st reqs).1.get? j = some false := by
  intro reqs
  induction reqs with
  | nil => intro st j aj itemj h _; simp at h
  | cons p rest ih =>
    intro st j aj itemj h hm
    obtain ⟨a, it⟩ := p
    cases j with
    | zero =>
      simp only [List.get?] at h
      injection h with h'
      have hit : it = itemj := congrArg Prod.snd h'
      show some (claim_item st a it).1 = some false
      rw [claim_item_false_of_mem st a it (by rw [hit]; exact hm)]
    | succ j' =>
      simp only [List.get?] at h
      exact ih _ j' aj itemj h (claim_item_mono st a it _ hm)

/-- C3.  Claim-registry exclusivity: in any sequence of `claim_item`
calls within one run, once a call for some label is approved, every later
call whose label has the same normalization (lower-cased, stripped) is
rejected — hence at most one call per normalized label is approved. -/
theorem claim_registry_exclusive
    (reqs : List (Nat × String)) (st : OrchState) :
    ∀ (i j ai aj : Nat) (itemi itemj : String),
      i < j →
      reqs.get? i = some (ai, itemi) →
      reqs.get? j = some (aj, itemj) →
      normalizeLabel itemi = normalizeLabel itemj →
      (runClaims st reqs).1.get? i = some true →
      (runClaims st reqs).1.get? j = some false := by
  induction reqs generalizing st with
  | nil => intro i j ai aj itemi itemj _ hi _ _ _; simp at hi
  | cons p rest ih =>
    intro i j ai aj itemi itemj hij hi hj hnorm htrue
    obtain ⟨a, it⟩ := p
    cases i with
    | zero =>
      simp only [List.get?] at hi
      injection hi with hi'
      have hiti : it = itemi := congrArg Prod.snd hi'
      obtain ⟨j', rfl⟩ : ∃ j', j = j' + 1 := ⟨j - 1, by omega⟩
      simp only [List.get?] at hj
      have htrue' : (claim_item st a it).1 = true := by
        have h0 : some (claim_item st a it).1 = some true := htrue
        injection h0
      have hmem := claim_item_true_mem st a it htrue'
      show (runClaims (claim_item st a it).2 rest).1.get? j' = some false
      refine runClaims_mem_false rest _ j' aj itemj hj ?_
      rw [← hnorm, ← hiti]
      exact hmem
    | succ i' =>
      obtain ⟨j', rfl⟩ : ∃ j', j = j' + 1 := ⟨j - 1, by omega⟩
      simp only [List.get?] at hi hj
      show (runClaims (claim_item st a it).2 rest).1.get? j' = some false
      exact ih _ i' j' ai aj itemi itemj (by omega) hi hj hnorm htrue

/-- Witness for C3: the Stripe scenario — claims for `"Stripe"` and
`"  stripe "` normalize identically, and exactly the first one is
approved. -/
theorem claim_registry_exclusive_witness :
    (runClaims { worker_count := 3 } [(1, "Stripe"), (2, "  stripe ")]).1.get? 0 = some true ∧
    (runClaims { worker_count := 3 } [(1, "Stripe"), (2, "  stripe ")]).1.get? 1 = some false :=
  ⟨by decide,
    claim_registry_exclusive [(1, "Stripe"), (2, "  stripe ")] { worker_count := 3 }
      0 1 1 2 "Stripe" "  stripe " (by omega) rfl rfl (by decide) (by decide)⟩

/-! ## C6: planning fallback -/

/-- C6.  Planning fallback: whenever the planning oracle raises, or its
output fails anywhere in the parse pipeline (fence extraction feeding an
undecodable string, missing or invalid `task_type`, non-integer
`target_count`, ill-typed field), `parse_prompt` returns a `PreAssigned`
plan with `target_count` 1 whose single sub-instruction is exactly the
original instruction text (orchestrator.py lines 151-159). -/
theorem plan_fallback_verbatim (worker_count : Nat) (prompt : String)
    (oracle : Except String String) (jloads : String → Except String Json)
    (h : (∃ m, oracle = .error m) ∨
      ∃ e, plan_attempt worker_count prompt oracle jloads = .error e) :
    (parse_prompt worker_count prompt oracle jloads).task_type = .pre_assigned ∧
    (parse_prompt worker_count prompt oracle jloads).target_count = 1 ∧
    (parse_prompt worker_count prompt oracle jloads).sub_tasks = [prompt] ∧
    (parse_prompt worker_count prompt oracle jloads).original_prompt = prompt := by
  have he : ∃ e, plan_attempt worker_count prompt oracle jloads = .error e := by
    rcases h with ⟨m, hm⟩ | he
    · refine ⟨m, ?_⟩
      unfold plan_attempt
      rw [hm]
      rfl
    · exact he
  obtain ⟨e, he⟩ := he
  unfold parse_prompt
  rw [he]
  exact ⟨rfl, rfl, rfl, rfl⟩

/-- Witness for C6: the oracle raises; the fallback plan carries the raw
instruction verbatim. -/
theorem plan_fallback_verbatim_witness :
    (parse_prompt 6 "find 5 YC companies" (.error "Gemini unavailable")
      (fun _ => .error "unused")).task_type = .pre_assigned ∧
    (parse_prompt 6 "find 5 YC companies" (.error "Gemini unavailable")
      (fun _ => .error "unused")).target_count = 1 ∧
    (parse_prompt 6 "find 5 YC companies" (.error "Gemini unavailable")
      (fun _ => .error "unused")).sub_tasks = ["find 5 YC companies"] ∧
    (parse_prompt 6 "find 5 YC companies" (.error "Gemini unavailable")
      (fun _ => .error "unused")).original_prompt = "find 5 YC companies" :=
  plan_fallback_verbatim 6 "find 5 YC companies" (.error "Gemini unavailable")
    (fun _ => .error "unused") (Or.inl ⟨"Gemini unavailable", rfl⟩)

/-! ## C7: synthesis fallback -/

theorem joinSep_mem (sep : String) :
    ∀ (l : List String) (s : String), s ∈ l → ∃ a b, joinSep sep l = a ++ s ++ b := by
  intro l
  induction l with
  | nil => intro s h; cases h
  | cons x t ih =>
    intro s h
    cases t with
    | nil =>
      rcases List.mem_singleton.mp h with rfl
      exact ⟨"", "", by simp [joinSep]⟩
    | cons y t' =>
      rcases List.mem_cons.mp h with rfl | hmem
      · exact ⟨"", sep ++ joinSep sep (y :: t'), by simp [joinSep, String.append_assoc]⟩
      · obtain ⟨a, b, hab⟩ := ih s hmem
        refine ⟨x ++ sep ++ a, b, ?_⟩
        show x ++ sep ++ joinSep sep (y :: t') = _
        rw [hab]
        simp [String.append_assoc]

/-- C7.  Synthesis fallback: in a run with an active plan, if the
synthesis oracle raises and at least one agent result is `Done`, the
returned text is non-empty and contains, for every `Done` result, its
label (the claimed item, or the `Agent {id}` heading when no item was
claimed) and its raw result text (orchestrator.py lines 250-252). -/
theorem synthesize_fallback_contains (st : OrchState) (e : String) (p : TaskPlan)
    (hp : st.current_plan = some p) (hres : doneResults st ≠ []) :
    synthesize st (.error e) ≠ "" ∧
    ∀ r ∈ doneResults st,
      (∃ a b, synthesize st (.error e) = a ++ synthLabel r ++ b) ∧
      (∃ a b, synthesize st (.error e) = a ++ r.result ++ b) := by
  have hkey : synthesize st (.error e) = "## Results\n\n" ++ resultsText (doneResults st) := by
    unfold synthesize
    rw [hp]
    show (if (doneResults st).isEmpty = true then _ else _) = _
    rw [if_neg (by simp [List.isEmpty_iff, hres])]
  rw [hkey]
  constructor
  · intro hcon
    have hd := congrArg String.data hcon
    simp at hd
  · intro r hr
    have hpart : ("### " ++ synthLabel r ++ "\n" ++ r.result) ∈
        (doneResults st).map (fun r => "### " ++ synthLabel r ++ "\n" ++ r.result) :=
      List.mem_map_of_mem _ hr
    obtain ⟨a, b, hab⟩ := joinSep_mem "\n\n" _ _ hpart
    unfold resultsText
    rw [hab]
    constructor
    · exact ⟨"## Results\n\n" ++ a ++ "### ", "\n" ++ r.result ++ b, by
        simp [String.append_assoc]⟩
    · exact ⟨"## Results\n\n" ++ (a ++ ("### " ++ synthLabel r ++ "\n")), b, by
        simp [String.append_assoc]⟩

/-- Witness for C7: one `Done` result claiming Stripe, one errored agent;
the oracle fails and the fallback text contains the label and the raw
result. -/
theorem synthesize_fallback_contains_witness :
    ({ worker_count := 2
       agent_results :=
         [(1, { agent_id := 1, claimed_item := some "Stripe"
                result := "Stripe is valued at $65B", status := .done }),
          (2, { agent_id := 2, claimed_item := none, result := ""
                status := .error, error := some "HTTP 500" })]
       current_plan := some { task_type := .dynamic_discovery
                              original_prompt := "find 2 YC companies"
                              target_count := 2 } } : OrchState).current_plan =
      some { task_type := .dynamic_discovery, original_prompt := "find 2 YC companies"
             target_count := 2 } ∧
    synthesize
      { worker_count := 2
        agent_results :=
          [(1, { agent_id := 1, claimed_item := some "Stripe"
                 result := "Stripe is valued at $65B", status := .done }),
           (2, { agent_id := 2, claimed_item := none, result := ""
                 status := .error, error := some "HTTP 500" })]
        current_plan := some { task_type := .dynamic_discovery
                               original_prompt := "find 2 YC companies"
                               target_count := 2 } } (.error "oracle down") ≠ "" := by
  constructor
  · rfl
  · exact (synthesize_fallback_contains _ "oracle down" _ rfl (by decide)).1

/-! ## C9: `call_tool` totality -/

/-- C9 counterexample: calling `call_tool` before `connect` raises — the
`RuntimeError("MCP client not connected")` of mcp_client.py line 208 is
raised before the `try` of `_send_request` and `call_tool` (line 329) has
no handler, so this failure mode is not folded into the returned result's
error field. -/
theorem call_tool_not_connected_cex :
    (call_tool { cl := { connected := false }, tx := [], log := [] }
      "browser_navigate" (.obj []) (fun _ => none)).1 =
      Except.error "MCP client not connected" := rfl

/-- A JSON-RPC payload is safe to hand to `from_mcp_response` when it is
falsy (routed to the fallback result) or a JSON object. -/
def payloadSafe (j : Json) : Bool := !j.truthy || j.isObj

/-- A scripted response is safe when any payload it can deliver to
`call_tool` is `payloadSafe`: the parsed value of an SSE response, or the
`"result"` field of a decoded JSON envelope. -/
def respSafe (r : HttpResp) : Bool :=
  match r.kind with
  | .okSse (some j) => payloadSafe j
  | .okJsonBody (.ok (.obj fs)) =>
    match jlookup fs "result" with
    | some v => payloadSafe v
    | none => true
  | _ => true

/-- Transport scripts only shrink by dropping consumed responses. -/
theorem all_respSafe_drop (tx : List HttpResp) (n : Nat)
    (h : tx.all respSafe = true) : (tx.drop n).all respSafe = true := by
  rw [List.all_eq_true] at h ⊢
  intro r hr
  exact h r (List.mem_of_mem_drop hr)

theorem send_request0_tx (s : SendState) (method : String) :
    ∃ n, (send_request0 s method).2.tx = s.tx.drop n := by
  obtain ⟨cl, tx, log⟩ := s
  unfold send_request0 send_request_base
  by_cases hc : cl.connected = false
  · rw [if_pos hc]
    exact ⟨0, rfl⟩
  · rw [if_neg hc]
    cases tx with
    | nil => exact ⟨0, rfl⟩
    | cons r rest =>
      obtain ⟨hdr, kd⟩ := r
      cases kd with
      | okSse parsed => exact ⟨1, rfl⟩
      | okJsonBody decoded =>
        cases decoded with
        | error e => exact ⟨1, rfl⟩
        | ok j => exact ⟨1, rfl⟩
      | accepted => exact ⟨1, rfl⟩
      | status code =>
        refine ⟨1, ?_⟩
        by_cases h4 : code = 404
        · subst h4
          rfl
        · show (if code = 404 then _ else _ : Except String (Option Json) × SendState).2.tx = _
          rw [if_neg h4]
          rfl
      | raise m => exact ⟨1, rfl⟩

theorem send_notification_tx (s : SendState) (method : String) :
    ∃ n, (send_notification s method).tx = s.tx.drop n := by
  unfold send_notification
  by_cases hc : s.cl.connected = false
  · rw [if_pos hc]
    exact ⟨0, rfl⟩
  · rw [if_neg hc]
    exact ⟨1, rfl⟩

theorem reinit_session_tx (s : SendState) :
    ∃ n, (reinit_session s).tx = s.tx.drop n := by
  unfold reinit_session
  obtain ⟨n0, h0⟩ := send_request0_tx s "initialize"
  rcases hsr : send_request0 s "initialize" with ⟨r, s1⟩
  cases r with
  | error m =>
    refine ⟨n0, ?_⟩
    show s1.tx = _
    rw [← h0, hsr]
  | ok v =>
    obtain ⟨n1, h1⟩ := send_notification_tx s1 "notifications/initialized"
    refine ⟨n0 + n1, ?_⟩
    show (send_notification s1 "notifications/initialized").tx = _
    rw [h1]
    have : s1.tx = s.tx.drop n0 := by rw [← h0, hsr]
    rw [this, List.drop_drop, Nat.add_comm]

/-! Branch equations of `send_request_base`, used to rewrite hypotheses
without unfolding the full definition. -/

theorem send_base_eq_notConnected (cl : MCPState) (tx : List HttpResp)
    (log : List LogEntry) (method : String)
    (on404 : SendState → Except String (Option Json) × SendState)
    (hc : cl.connected = false) :
    send_request_base ⟨cl, tx, log⟩ method on404 =
      (.error "MCP client not connected", ⟨cl, tx, log⟩) := by
  unfold send_request_base
  rw [if_pos hc]

theorem send_base_eq_nil (cl : MCPState) (log : List LogEntry) (method : String)
    (on404 : SendState → Except String (Option Json) × SendState)
    (hc : cl.connected = true) :
    send_request_base ⟨cl, [], log⟩ method on404 =
      (.ok none, ⟨{ cl with requestId := cl.requestId + 1 }, [],
        log ++ [{ method := method, session := cl.sessionId }]⟩) := by
  unfold send_request_base
  rw [if_neg (by simp [hc])]

theorem send_base_eq_raise (cl : MCPState) (hdr : Option String) (m : String)
    (rest : List HttpResp) (log : List LogEntry) (method : String)
    (on404 : SendState → Except String (Option Json) × SendState)
    (hc : cl.connected = true) :
    send_request_base ⟨cl, ⟨hdr, .raise m⟩ :: rest, log⟩ method on404 =
      (.ok none, ⟨{ cl with requestId := cl.requestId + 1 }, rest,
        log ++ [{ method := method, session := cl.sessionId }]⟩) := by
  unfold send_request_base
  rw [if_neg (by simp [hc])]

theorem send_base_eq_okSse (cl : MCPState) (hdr : Option String)
    (parsed : Option Json) (rest : List HttpResp) (log : List LogEntry)
    (method : String)
    (on404 : SendState → Except String (Option Json) × SendState)
    (hc : cl.connected = true) :
    send_request_base ⟨cl, ⟨hdr, .okSse parsed⟩ :: rest, log⟩ method on404 =
      (.ok parsed,
        ⟨storeHdr { cl with requestId := cl.requestId + 1 } ⟨hdr, .okSse parsed⟩, rest,
          log ++ [{ method := method, session := cl.sessionId }]⟩) := by
  unfold send_request_base
  rw [if_neg (by simp [hc])]

theorem send_base_eq_okJsonErr (cl : MCPState) (hdr : Option String) (e : String)
    (rest : List HttpResp) (log : List LogEntry) (method : String)
    (on404 : SendState → Except String (Option Json) × SendState)
    (hc : cl.connected = true) :
    send_request_base ⟨cl, ⟨hdr, .okJsonBody (.error e)⟩ :: rest, log⟩ method on404 =
      (.ok none,
        ⟨storeHdr { cl with requestId := cl.requestId + 1 } ⟨hdr, .okJsonBody (.error e)⟩,
          rest, log ++ [{ method := method, session := cl.sessionId }]⟩) := by
  unfold send_request_base
  rw [if_neg (by simp [hc])]

theorem send_base_eq_okJsonOk (cl : MCPState) (hdr : Option String) (j : Json)
    (rest : List HttpResp) (log : List LogEntry) (method : String)
    (on404 : SendState → Except String (Option Json) × SendState)
    (hc : cl.connected = true) :
    send_request_base ⟨cl, ⟨hdr, .okJsonBody (.ok j)⟩ :: rest, log⟩ method on404 =
      (.ok (jsonEnvelopePayload j),
        ⟨storeHdr { cl with requestId := cl.requestId + 1 } ⟨hdr, .okJsonBody (.ok j)⟩,
          rest, log ++ [{ method := method, session := cl.sessionId }]⟩) := by
  unfold send_request_base
  rw [if_neg (by simp [hc])]

theorem send_base_eq_accepted (cl : MCPState) (hdr : Option String)
    (rest : List HttpResp) (log : List LogEntry) (method : String)
    (on404 : SendState → Except String (Option Json) × SendState)
    (hc : cl.connected = true) :
    send_request_base ⟨cl, ⟨hdr, .accepted⟩ :: rest, log⟩ method on404 =
      (.ok none,
        ⟨storeHdr { cl with requestId := cl.requestId + 1 } ⟨hdr, .accepted⟩, rest,
          log ++ [{ method := method, session := cl.sessionId }]⟩) := by
  unfold send_request_base
  rw [if_neg (by simp [hc])]

theorem send_base_eq_404 (cl : MCPState) (hdr : Option String)
    (rest : List HttpResp) (log : List LogEntry) (method : String)
    (on404 : SendState → Except String (Option Json) × SendState)
    (hc : cl.connected = true) :
    send_request_base ⟨cl, ⟨hdr, .status 404⟩ :: rest, log⟩ method on404 =
      on404 ⟨storeHdr { cl with requestId := cl.requestId + 1 } ⟨hdr, .status 404⟩, rest,
        log ++ [{ method := method, session := cl.sessionId }]⟩ := by
  unfold send_request_base
  rw [if_neg (by simp [hc])]
  rfl

theorem send_base_eq_statusOther (cl : MCPState) (hdr : Option String) (code : Nat)
    (rest : List HttpResp) (log : List LogEntry) (method : String)
    (on404 : SendState → Except String (Option Json) × SendState)
    (hc : cl.connected = true) (h4 : code ≠ 404) :
    send_request_base ⟨cl, ⟨hdr, .status code⟩ :: rest, log⟩ method on404 =
      (.ok none,
        ⟨storeHdr { cl with requestId := cl.requestId + 1 } ⟨hdr, .status code⟩, rest,
          log ++ [{ method := method, session := cl.sessionId }]⟩) := by
  unfold send_request_base
  rw [if_neg (by simp [hc])]
  show (if code = 404 then _ else _ : Except String (Option Json) × SendState) = _
  rw [if_neg h4]

theorem storeHdr_connected (cl : MCPState) (r : HttpResp) :
    (storeHdr cl r).connected = cl.connected := by
  obtain ⟨hdr, kd⟩ := r
  cases hdr with
  | none => rfl
  | some sid => rfl

/-- A payload delivered from a decoded JSON envelope is the envelope's
`result` member of a JSON object. -/
theorem jsonEnvelopePayload_some (jj j : Json) (h : jsonEnvelopePayload jj = some j) :
    ∃ fs, jj = Json.obj fs ∧ jlookup fs "result" = some j := by
  cases jj with
  | null => simp [jsonEnvelopePayload, pyInError] at h
  | bool b => simp [jsonEnvelopePayload, pyInError] at h
  | num n => simp [jsonEnvelopePayload, pyInError] at h
  | str s =>
    cases hb : (findSub "error".data s.data).isSome with
    | true => simp [jsonEnvelopePayload, pyInError, hb] at h
    | false => simp [jsonEnvelopePayload, pyInError, envelopeResult, hb] at h
  | arr xs =>
    cases hb : xs.any (fun x => match x with | Json.str s => decide (s = "error") | _ => false) with
    | true => simp [jsonEnvelopePayload, pyInError, hb] at h
    | false => simp [jsonEnvelopePayload, pyInError, envelopeResult, hb] at h
  | obj fs =>
    cases hb : (jlookup fs "error").isSome with
    | true => simp [jsonEnvelopePayload, pyInError, hb] at h
    | false =>
      refine ⟨fs, rfl, ?_⟩
      simpa [jsonEnvelopePayload, pyInError, envelopeResult, hb] using h

/-- Payload safety for `send_request_base`, compositional in the 404
handler. -/
theorem send_base_payload (s : SendState) (method : String)
    (on404 : SendState → Except String (Option Json) × SendState)
    (hs : s.tx.all respSafe = true)
    (hon : ∀ s', s'.tx.all respSafe = true →
      ∀ j, (on404 s').1 = .ok (some j) → payloadSafe j = true)
    (j : Json) (h : (send_request_base s method on404).1 = .ok (some j)) :
    payloadSafe j = true := by
  obtain ⟨cl, tx, log⟩ := s
  by_cases hc0 : cl.connected = false
  · rw [send_base_eq_notConnected cl tx log method on404 hc0] at h
    cases h
  · have hc : cl.connected = true := by
      revert hc0
      cases cl.connected
      · intro hp; exact absurd rfl hp
      · intro _; rfl
    cases tx with
    | nil =>
      rw [send_base_eq_nil cl log method on404 hc] at h
      cases h
    | cons r rest =>
      have hsr : respSafe r = true := by
        rw [List.all_eq_true] at hs
        exact hs _ (List.mem_cons_self _ _)
      have hsrest : rest.all respSafe = true := by
        rw [List.all_eq_true] at hs ⊢
        intro x hx
        exact hs x (List.mem_cons_of_mem _ hx)
      obtain ⟨hdr, kd⟩ := r
      cases kd with
      | okSse parsed =>
        rw [send_base_eq_okSse cl hdr parsed rest log method on404 hc] at h
        have hp : parsed = some j := by injection h
        subst hp
        simpa [respSafe] using hsr
      | okJsonBody decoded =>
        cases decoded with
        | error e =>
          rw [send_base_eq_okJsonErr cl hdr e rest log method on404 hc] at h
          cases h
        | ok jj =>
          rw [send_base_eq_okJsonOk cl hdr jj rest log method on404 hc] at h
          have hp : jsonEnvelopePayload jj = some j := by injection h
          obtain ⟨fs, rfl, hres⟩ := jsonEnvelopePayload_some jj j hp
          simpa [respSafe, hres] using hsr
      | accepted =>
        rw [send_base_eq_accepted cl hdr rest log method on404 hc] at h
        cases h
      | status code =>
        by_cases h4 : code = 404
        · subst h4
          rw [send_base_eq_404 cl hdr rest log method on404 hc] at h
          exact hon _ hsrest j h
        · rw [send_base_eq_statusOther cl hdr code rest log method on404 hc h4] at h
          cases h
      | raise m =>
        rw [send_base_eq_raise cl hdr m rest log method on404 hc] at h
        cases h

theorem send_request0_payload (s : SendState) (method : String)
    (hs : s.tx.all respSafe = true) (j : Json)
    (h : (send_request0 s method).1 = .ok (some j)) : payloadSafe j = true := by
  refine send_base_payload s method _ hs ?_ j h
  intro s' _ j' h'
  cases h'

theorem retry404_payload (method : String) (s' : SendState)
    (hs' : s'.tx.all respSafe = true) (j : Json)
    (h : (retry404 method s').1 = .ok (some j)) : payloadSafe j = true := by
  unfold retry404 at h
  have hs2 : (reinit_session { s' with cl := { s'.cl with sessionId := none } }).tx.all respSafe = true := by
    obtain ⟨n, hn⟩ := reinit_session_tx { s' with cl := { s'.cl with sessionId := none } }
    rw [hn]
    exact all_respSafe_drop _ n hs'
  rcases h0 : send_request0 (reinit_session { s' with cl := { s'.cl with sessionId := none } }) method with ⟨r0, s3⟩
  rw [h0] at h
  cases r0 with
  | error m => cases h
  | ok v =>
    have hv : v = some j := by injection h
    subst hv
    have hp := send_request0_payload
      (reinit_session { s' with cl := { s'.cl with sessionId := none } }) method hs2 j
    rw [h0] at hp
    exact hp rfl

theorem send_request1_payload (s : SendState) (method : String)
    (hs : s.tx.all respSafe = true) (j : Json)
    (h : (send_request1 s method).1 = .ok (some j)) : payloadSafe j = true := by
  refine send_base_payload s method _ hs ?_ j h
  intro s' hs' j' h'
  exact retry404_payload method s' hs' j' h'

/-- No path in `send_request_base` raises when the client is connected
and the 404 handler does not raise. -/
theorem send_base_ok (s : SendState) (method : String)
    (on404 : SendState → Except String (Option Json) × SendState)
    (hc : s.cl.connected = true)
    (hon : ∀ s', ∃ v, (on404 s').1 = .ok v) :
    ∃ v, (send_request_base s method on404).1 = .ok v := by
  obtain ⟨cl, tx, log⟩ := s
  cases tx with
  | nil =>
    rw [send_base_eq_nil cl log method on404 hc]
    exact ⟨none, rfl⟩
  | cons r rest =>
    obtain ⟨hdr, kd⟩ := r
    cases kd with
    | okSse parsed =>
      rw [send_base_eq_okSse cl hdr parsed rest log method on404 hc]
      exact ⟨parsed, rfl⟩
    | okJsonBody decoded =>
      cases decoded with
      | error e =>
        rw [send_base_eq_okJsonErr cl hdr e rest log method on404 hc]
        exact ⟨none, rfl⟩
      | ok jj =>
        rw [send_base_eq_okJsonOk cl hdr jj rest log method on404 hc]
        exact ⟨jsonEnvelopePayload jj, rfl⟩
    | accepted =>
      rw [send_base_eq_accepted cl hdr rest log method on404 hc]
      exact ⟨none, rfl⟩
    | status code =>
      by_cases h4 : code = 404
      · subst h4
        rw [send_base_eq_404 cl hdr rest log method on404 hc]
        exact hon _
      · rw [send_base_eq_statusOther cl hdr code rest log method on404 hc h4]
        exact ⟨none, rfl⟩
    | raise m =>
      rw [send_base_eq_raise cl hdr m rest log method on404 hc]
      exact ⟨none, rfl⟩

theorem send_request0_ok (s : SendState) (method : String)
    (hc : s.cl.connected = true) : ∃ v, (send_request0 s method).1 = .ok v :=
  send_base_ok s method _ hc (fun _ => ⟨none, rfl⟩)

theorem retry404_ok (method : String) (s' : SendState) :
    ∃ v, (retry404 method s').1 = .ok v := by
  unfold retry404
  rcases h0 : send_request0 (reinit_session { s' with cl := { s'.cl with sessionId := none } }) method with ⟨r0, s3⟩
  cases r0 with
  | error m => exact ⟨none, rfl⟩
  | ok v => exact ⟨v, rfl⟩

theorem send_request1_ok (s : SendState) (method : String)
    (hc : s.cl.connected = true) : ∃ v, (send_request1 s method).1 = .ok v := by
  refine send_base_ok s method _ hc ?_
  intro s'
  exact retry404_ok method s'

/-- Success test on the result of `from_mcp_response`. -/
def exceptIsOk : Except String MCPToolResult → Bool
  | .ok _ => true
  | .error _ => false

/-- A JSON-object payload makes `from_mcp_response` return normally. -/
theorem from_mcp_response_ok (b64 : String → Option (List Nat)) (j : Json)
    (hj : j.isObj = true) : exceptIsOk (from_mcp_response b64 j) = true := by
  cases j with
  | obj fs =>
    unfold from_mcp_response
    split <;> first | (split <;> rfl) | simp_all
  | null => cases hj
  | bool b => cases hj
  | num n => cases hj
  | str s => cases hj
  | arr xs => cases hj

/-- C9 as amended: for every tool name and argument dict, `call_tool`
never raises to its caller provided the client is connected and every
JSON-RPC payload the transport can deliver is falsy or a JSON object —
network errors, non-success statuses, protocol errors and decode
failures are all folded into the returned result.  Without the provisos
it can raise: before `connect` the `RuntimeError` of line 208 escapes
(see the counterexample), and a truthy non-object payload raises inside
`from_mcp_response`. -/
theorem call_tool_total_amended (s : SendState) (tool_name : String) (args : Json)
    (b64 : String → Option (List Nat))
    (hc : s.cl.connected = true) (hs : s.tx.all respSafe = true) :
    ∃ tr, (call_tool s tool_name args b64).1 = .ok tr := by
  unfold call_tool
  rcases h1 : send_request1 s "tools/call" with ⟨r1, s'⟩
  obtain ⟨v, hv⟩ := send_request1_ok s "tools/call" hc
  rw [h1] at hv
  subst hv
  cases v with
  | none => exact ⟨_, rfl⟩
  | some j =>
    by_cases ht : j.truthy = true
    · have hps : payloadSafe j = true := by
        have hp := send_request1_payload s "tools/call" hs j
        rw [h1] at hp
        exact hp rfl
      have hobj : j.isObj = true := by
        unfold payloadSafe at hps
        rw [ht] at hps
        simpa using hps
      have hok := from_mcp_response_ok b64 j hobj
      rcases hfm : from_mcp_response b64 j with m | tr
      · rw [hfm] at hok
        cases hok
      · refine ⟨tr, ?_⟩
        show (if j.truthy = true then _ else _ : Except String MCPToolResult × SendState).1 = _
        rw [if_pos ht, hfm]
    · refine ⟨{ error := some ("Failed to execute tool: " ++ tool_name) }, ?_⟩
      show (if j.truthy = true then _ else _ : Except String MCPToolResult × SendState).1 = _
      rw [if_neg ht]

/-- Witness for C9 (amended): a connected client, one scripted 200
response carrying a well-formed MCP envelope; `call_tool` returns
normally. -/
theorem call_tool_total_amended_witness :
    ∃ tr, (call_tool
      { cl := { connected := true }
        tx := [{ sessionHdr := some "sess-1"
                 kind := .okJsonBody (.ok (.obj [("result",
                   .obj [("content", .arr [.obj [("type", .str "text"),
                     ("text", .str "page loaded")]])])]))}]
        log := [] }
      "browser_navigate" (.obj [("url", .str "https://ycombinator.com")])
      (fun _ => none)).1 = .ok tr :=
  call_tool_total_amended _ "browser_navigate" _ (fun _ => none) rfl (by decide)

/-! ## C8: bounded session retry -/

/-- Number of log entries posting `method`. -/
def countMethod (log : List LogEntry) (method : String) : Nat :=
  log.countP (fun e => e.method = method)

theorem countMethod_append (l1 l2 : List LogEntry) (m : String) :
    countMethod (l1 ++ l2) m = countMethod l1 m + countMethod l2 m :=
  List.countP_append _ _ _

theorem countMethod_single (e : LogEntry) (m : String) :
    countMethod [e] m = if e.method = m then 1 else 0 := by
  simp [countMethod, List.countP_cons, List.countP_nil]

theorem send_notification_eq (cl : MCPState) (tx : List HttpResp)
    (log : List LogEntry) (method : String) (hc : cl.connected = true) :
    send_notification ⟨cl, tx, log⟩ method =
      ⟨cl, tx.drop 1, log ++ [{ method := method, session := cl.sessionId }]⟩ := by
  unfold send_notification
  rw [if_neg (by simp [hc])]

/-- One `send_request0` call on a non-empty transcript: it posts exactly
one entry (the method with the current session token), consumes exactly
the head response, always returns `.ok` (the retry flag is off, so even a
404 just yields `None`), and preserves connectedness. -/
theorem send_request0_shape (cl : MCPState) (hdr : Option String) (kd : RespKind)
    (rest : List HttpResp) (log : List LogEntry) (method : String)
    (hc : cl.connected = true) :
    ∃ v cl', send_request0 ⟨cl, ⟨hdr, kd⟩ :: rest, log⟩ method =
        (.ok v, ⟨cl', rest, log ++ [{ method := method, session := cl.sessionId }]⟩) ∧
      cl'.connected = true ∧ (kd = .status 404 → v = none) := by
  cases kd with
  | okSse parsed =>
    refine ⟨parsed, _, send_base_eq_okSse cl hdr parsed rest log method _ hc, ?_, ?_⟩
    · rw [storeHdr_connected]
      exact hc
    · intro h; cases h
  | okJsonBody decoded =>
    cases decoded with
    | error e =>
      refine ⟨none, _, send_base_eq_okJsonErr cl hdr e rest log method _ hc, ?_, ?_⟩
      · rw [storeHdr_connected]
        exact hc
      · intro h; cases h
    | ok j =>
      refine ⟨jsonEnvelopePayload j, _,
        send_base_eq_okJsonOk cl hdr j rest log method _ hc, ?_, ?_⟩
      · rw [storeHdr_connected]
        exact hc
      · intro h; cases h
  | accepted =>
    refine ⟨none, _, send_base_eq_accepted cl hdr rest log method _ hc, ?_, ?_⟩
    · rw [storeHdr_connected]
      exact hc
    · intro h; cases h
  | status code =>
    by_cases h4 : code = 404
    · subst h4
      refine ⟨none, storeHdr { cl with requestId := cl.requestId + 1 } ⟨hdr, .status 404⟩,
        send_base_eq_404 cl hdr rest log method _ hc, ?_, fun _ => rfl⟩
      rw [storeHdr_connected]
      exact hc
    · refine ⟨none, _, send_base_eq_statusOther cl hdr code rest log method _ hc h4, ?_, ?_⟩
      · rw [storeHdr_connected]
        exact hc
      · intro h
        injection h with h'
        exact absurd h' h4
  | raise m =>
    exact ⟨none, _, send_base_eq_raise cl hdr m rest log method _ hc,
      hc, fun h => by cases h⟩

/-- One `_reinitialize_session` on a transcript with at least two
responses: it posts the `initialize` handshake with the (cleared) session
token and the `initialized` notification, consumes exactly two responses,
and preserves connectedness. -/
theorem reinit_session_shape (cl : MCPState) (r1 r2 : HttpResp)
    (rest : List HttpResp) (log : List LogEntry)
    (hc : cl.connected = true) (hsid : cl.sessionId = none) :
    ∃ cl₂, reinit_session ⟨cl, r1 :: r2 :: rest, log⟩ =
        ⟨cl₂, rest, log ++ [{ method := "initialize", session := none },
          { method := "notifications/initialized", session := cl₂.sessionId }]⟩ ∧
      cl₂.connected = true := by
  obtain ⟨hdr1, kd1⟩ := r1
  obtain ⟨v, cl', hsr, hc', _⟩ :=
    send_request0_shape cl hdr1 kd1 (r2 :: rest) log "initialize" hc
  refine ⟨cl', ?_, hc'⟩
  unfold reinit_session
  rw [hsr]
  show send_notification
    ⟨cl', r2 :: rest, log ++ [{ method := "initialize", session := cl.sessionId }]⟩
    "notifications/initialized" = _
  rw [send_notification_eq cl' (r2 :: rest) _ _ hc', hsid]
  simp [List.append_assoc]

/-- The log entries added by one `send_request0` call: at most one, all
posting its own method. -/
theorem send_request0_log (s : SendState) (m₀ : String) :
    ∃ l', (send_request0 s m₀).2.log = s.log ++ l' ∧ l'.length ≤ 1 ∧
      ∀ e ∈ l', e.method = m₀ := by
  obtain ⟨cl, tx, log⟩ := s
  unfold send_request0
  by_cases hc0 : cl.connected = false
  · rw [send_base_eq_notConnected cl tx log m₀ _ hc0]
    exact ⟨[], by simp, by simp, by simp⟩
  · have hc : cl.connected = true := by
      revert hc0
      cases cl.connected
      · intro hp; exact absurd rfl hp
      · intro _; rfl
    cases tx with
    | nil =>
      rw [send_base_eq_nil cl log m₀ _ hc]
      exact ⟨[{ method := m₀, session := cl.sessionId }], rfl, by simp, by simp⟩
    | cons r rest =>
      obtain ⟨hdr, kd⟩ := r
      obtain ⟨v, cl', hsr, _, _⟩ := send_request0_shape cl hdr kd rest log m₀ hc
      have hsr' : (send_request0 ⟨cl, ⟨hdr, kd⟩ :: rest, log⟩ m₀).2.log =
          log ++ [{ method := m₀, session := cl.sessionId }] := by
        rw [hsr]
      rw [show send_request_base ⟨cl, ⟨hdr, kd⟩ :: rest, log⟩ m₀
          (fun s' => ((.ok none : Except String (Option Json)), s')) =
          send_request0 ⟨cl, ⟨hdr, kd⟩ :: rest, log⟩ m₀ from rfl, hsr']
      exact ⟨[{ method := m₀, session := cl.sessionId }], rfl, by simp, by simp⟩

theorem send_notification_log (s : SendState) (m₀ : String) :
    ∃ l', (send_notification s m₀).log = s.log ++ l' ∧ l'.length ≤ 1 ∧
      ∀ e ∈ l', e.method = m₀ := by
  obtain ⟨cl, tx, log⟩ := s
  unfold send_notification
  by_cases hc0 : cl.connected = false
  · rw [if_pos hc0]
    exact ⟨[], by simp, by simp, by simp⟩
  · rw [if_neg hc0]
    exact ⟨[{ method := m₀, session := cl.sessionId }], rfl, by simp, by simp⟩

/-- The log entries added by `_reinitialize_session` all post the
handshake methods. -/
theorem reinit_session_log (s : SendState) :
    ∃ l', (reinit_session s).log = s.log ++ l' ∧
      ∀ e ∈ l', e.method = "initialize" ∨ e.method = "notifications/initialized" := by
  unfold reinit_session
  obtain ⟨l1, hl1, _, hall1⟩ := send_request0_log s "initialize"
  rcases h0 : send_request0 s "initialize" with ⟨r0, s1⟩
  have hs1 : s1.log = s.log ++ l1 := by
    rw [← hl1, h0]
  cases r0 with
  | error m => exact ⟨l1, hs1, fun e he => Or.inl (hall1 e he)⟩
  | ok v =>
    obtain ⟨l2, hl2, _, hall2⟩ := send_notification_log s1 "notifications/initialized"
    refine ⟨l1 ++ l2, ?_, ?_⟩
    · rw [hl2, hs1, List.append_assoc]
    · intro e he
      rcases List.mem_append.mp he with h | h
      · exact Or.inl (hall1 e h)
      · exact Or.inr (hall2 e h)

theorem retry404_state (m : String) (s' : SendState) :
    (retry404 m s').2 =
      (send_request0 (reinit_session
        { s' with cl := { s'.cl with sessionId := none } }) m).2 := by
  unfold retry404
  rcases h0 : send_request0 (reinit_session
    { s' with cl := { s'.cl with sessionId := none } }) m with ⟨r0, s3⟩
  cases r0 with
  | error m' => rfl
  | ok v => rfl

/-- A `countMethod` over entries that all post other methods is zero. -/
theorem countMethod_zero (l : List LogEntry) (m : String)
    (h : ∀ e ∈ l, e.method ≠ m) : countMethod l m = 0 := by
  unfold countMethod
  rw [List.countP_eq_zero]
  intro e he
  simpa using h e he

/-- The single silent retry adds at most one more post of the original
method. -/
theorem retry404_count (m : String) (s' : SendState) (m' : String)
    (hm1 : m' ≠ "initialize") (hm2 : m' ≠ "notifications/initialized") :
    countMethod (retry404 m s').2.log m' ≤
      countMethod s'.log m' + (if m = m' then 1 else 0) := by
  rw [retry404_state]
  obtain ⟨l2, hl2, hlen2, hall2⟩ := send_request0_log
    (reinit_session { s' with cl := { s'.cl with sessionId := none } }) m
  obtain ⟨l1, hl1, hall1⟩ := reinit_session_log
    { s' with cl := { s'.cl with sessionId := none } }
  rw [hl2, hl1]
  show countMethod ((s'.log ++ l1) ++ l2) m' ≤ _
  rw [countMethod_append, countMethod_append]
  have hz1 : countMethod l1 m' = 0 := by
    refine countMethod_zero l1 m' ?_
    intro e he
    rcases hall1 e he with h | h
    · rw [h]; exact fun hh => hm1 hh.symm
    · rw [h]; exact fun hh => hm2 hh.symm
  have hz2 : countMethod l2 m' ≤ if m = m' then 1 else 0 := by
    by_cases hmm : m = m'
    · rw [if_pos hmm]
      calc countMethod l2 m' ≤ l2.length := List.countP_le_length _
        _ ≤ 1 := hlen2
    · rw [if_neg hmm]
      rw [countMethod_zero l2 m' (fun e he => by rw [hall2 e he]; exact hmm)]
  omega

/-- No call path posts a given (non-handshake) method more than twice:
the initial attempt plus at most one silent retry. -/
theorem send_request1_count (s : SendState) (m' : String)
    (hm1 : m' ≠ "initialize") (hm2 : m' ≠ "notifications/initialized") :
    countMethod (send_request1 s m').2.log m' ≤ countMethod s.log m' + 2 := by
  obtain ⟨cl, tx, log⟩ := s
  unfold send_request1
  by_cases hc0 : cl.connected = false
  · rw [send_base_eq_notConnected cl tx log m' _ hc0]
    show countMethod log m' ≤ countMethod log m' + 2
    omega
  · have hc : cl.connected = true := by
      revert hc0
      cases cl.connected
      · intro hp; exact absurd rfl hp
      · intro _; rfl
    have hone : countMethod (log ++ [{ method := m', session := cl.sessionId }]) m' =
        countMethod log m' + 1 := by
      rw [countMethod_append, countMethod_single]
      rw [if_pos rfl]
    cases tx with
    | nil =>
      rw [send_base_eq_nil cl log m' _ hc]
      show countMethod (log ++ [{ method := m', session := cl.sessionId }]) m' ≤
        countMethod log m' + 2
      omega
    | cons r rest =>
      obtain ⟨hdr, kd⟩ := r
      cases kd with
      | okSse parsed =>
        rw [send_base_eq_okSse cl hdr parsed rest log m' _ hc]
        show countMethod (log ++ [{ method := m', session := cl.sessionId }]) m' ≤
          countMethod log m' + 2
        omega
      | okJsonBody decoded =>
        cases decoded with
        | error e =>
          rw [send_base_eq_okJsonErr cl hdr e rest log m' _ hc]
          show countMethod (log ++ [{ method := m', session := cl.sessionId }]) m' ≤
            countMethod log m' + 2
          omega
        | ok j =>
          rw [send_base_eq_okJsonOk cl hdr j rest log m' _ hc]
          show countMethod (log ++ [{ method := m', session := cl.sessionId }]) m' ≤
            countMethod log m' + 2
          omega
      | accepted =>
        rw [send_base_eq_accepted cl hdr rest log m' _ hc]
        show countMethod (log ++ [{ method := m', session := cl.sessionId }]) m' ≤
          countMethod log m' + 2
        omega
      | status code =>
        by_cases h4 : code = 404
        · subst h4
          rw [send_base_eq_404 cl hdr rest log m' _ hc]
          have hr := retry404_count m'
            ⟨storeHdr { cl with requestId := cl.requestId + 1 } ⟨hdr, .status 404⟩, rest,
              log ++ [{ method := m', session := cl.sessionId }]⟩ m' hm1 hm2
          rw [if_pos rfl] at hr
          calc countMethod (retry404 m' _).2.log m'
              ≤ countMethod (log ++ [{ method := m', session := cl.sessionId }]) m' + 1 := hr
            _ ≤ countMethod log m' + 2 := by omega
        · rw [send_base_eq_statusOther cl hdr code rest log m' _ hc h4]
          show countMethod (log ++ [{ method := m', session := cl.sessionId }]) m' ≤
            countMethod log m' + 2
          omega
      | raise m =>
        rw [send_base_eq_raise cl hdr m rest log m' _ hc]
        show countMethod (log ++ [{ method := m', session := cl.sessionId }]) m' ≤
          countMethod log m' + 2
        omega

/-- C8.  Bounded session retry: for a request issued by the client (all
public entry points use `retry_on_session_error=True`), when the server
answers HTTP 404 (session not found) the client posts the original method
exactly twice in total — the initial attempt and one silent retry —
performing in between a re-handshake whose `initialize` post carries a
cleared session token; if the single retry is again answered 404, the
call surfaces failure (`None`); and on every transcript whatsoever no
call path posts its method more than twice. -/
theorem bounded_session_retry
    (cl : MCPState) (log : List LogEntry) (method : String) (hdr0 : Option String)
    (r1 r2 r3 : HttpResp) (rest : List HttpResp)
    (hc : cl.connected = true)
    (hm1 : method ≠ "initialize") (hm2 : method ≠ "notifications/initialized") :
    (countMethod (send_request1
        ⟨cl, ⟨hdr0, .status 404⟩ :: r1 :: r2 :: r3 :: rest, log⟩ method).2.log method =
      countMethod log method + 2) ∧
    ((send_request1
        ⟨cl, ⟨hdr0, .status 404⟩ :: r1 :: r2 :: r3 :: rest, log⟩ method).2.log.get?
        (log.length + 1) = some { method := "initialize", session := none }) ∧
    (r3.kind = .status 404 →
      (send_request1
        ⟨cl, ⟨hdr0, .status 404⟩ :: r1 :: r2 :: r3 :: rest, log⟩ method).1 = .ok none) ∧
    (∀ (s' : SendState) (m' : String),
      m' ≠ "initialize" → m' ≠ "notifications/initialized" →
      countMethod (send_request1 s' m').2.log m' ≤ countMethod s'.log m' + 2) := by
  have h1 : send_request1
      ⟨cl, ⟨hdr0, .status 404⟩ :: r1 :: r2 :: r3 :: rest, log⟩ method =
      retry404 method
        ⟨storeHdr { cl with requestId := cl.requestId + 1 } ⟨hdr0, .status 404⟩,
          r1 :: r2 :: r3 :: rest,
          log ++ [{ method := method, session := cl.sessionId }]⟩ := by
    unfold send_request1
    exact send_base_eq_404 cl hdr0 (r1 :: r2 :: r3 :: rest) log method _ hc
  have hA : ({ storeHdr { cl with requestId := cl.requestId + 1 } ⟨hdr0, .status 404⟩
      with sessionId := none } : MCPState).connected = true := by
    show (storeHdr { cl with requestId := cl.requestId + 1 } ⟨hdr0, .status 404⟩).connected = true
    rw [storeHdr_connected]
    exact hc
  obtain ⟨cl₂, hre, hc₂⟩ := reinit_session_shape
    { storeHdr { cl with requestId := cl.requestId + 1 } ⟨hdr0, .status 404⟩
      with sessionId := none } r1 r2 (r3 :: rest)
    (log ++ [{ method := method, session := cl.sessionId }]) hA rfl
  obtain ⟨hdr3, kd3⟩ := r3
  obtain ⟨v₃, cl₃, hs3, _, h404v⟩ := send_request0_shape cl₂ hdr3 kd3 rest
    ((log ++ [{ method := method, session := cl.sessionId }]) ++
      [{ method := "initialize", session := none },
        { method := "notifications/initialized", session := cl₂.sessionId }])
    method hc₂
  have h2 : retry404 method
      ⟨storeHdr { cl with requestId := cl.requestId + 1 } ⟨hdr0, .status 404⟩,
        r1 :: r2 :: ⟨hdr3, kd3⟩ :: rest,
        log ++ [{ method := method, session := cl.sessionId }]⟩ =
      (.ok v₃, ⟨cl₃, rest,
        (((log ++ [{ method := method, session := cl.sessionId }]) ++
          [{ method := "initialize", session := none },
            { method := "notifications/initialized", session := cl₂.sessionId }]) ++
          [{ method := method, session := cl₂.sessionId }])⟩) := by
    unfold retry404
    rw [show ({ (⟨storeHdr { cl with requestId := cl.requestId + 1 } ⟨hdr0, .status 404⟩,
        r1 :: r2 :: ⟨hdr3, kd3⟩ :: rest,
        log ++ [{ method := method, session := cl.sessionId }]⟩ : SendState) with
        cl := { (storeHdr { cl with requestId := cl.requestId + 1 }
          ⟨hdr0, .status 404⟩ : MCPState) with sessionId := none } } : SendState) =
      ⟨{ storeHdr { cl with requestId := cl.requestId + 1 } ⟨hdr0, .status 404⟩
          with sessionId := none }, r1 :: r2 :: ⟨hdr3, kd3⟩ :: rest,
        log ++ [{ method := method, session := cl.sessionId }]⟩ from rfl]
    rw [hre, hs3]
  have hfull := h1.trans h2
  refine ⟨?_, ?_, ?_, ?_⟩
  · rw [hfull]
    show countMethod
      ((((log ++ [{ method := method, session := cl.sessionId }]) ++
        [{ method := "initialize", session := none },
          { method := "notifications/initialized", session := cl₂.sessionId }]) ++
        [{ method := method, session := cl₂.sessionId }])) method = countMethod log method + 2
    rw [countMethod_append, countMethod_append, countMethod_append,
      countMethod_single, countMethod_single]
    rw [if_pos rfl]
    have hzero : countMethod
        [{ method := "initialize", session := none },
          { method := "notifications/initialized", session := cl₂.sessionId }] method = 0 := by
      refine countMethod_zero _ _ ?_
      intro e he
      rcases List.mem_cons.mp he with rfl | he'
      · exact fun hh => hm1 hh.symm
      · rcases List.mem_singleton.mp he' with rfl
        exact fun hh => hm2 hh.symm
    rw [hzero]
  · rw [hfull]
    show ((((log ++ [({ method := method, session := cl.sessionId } : LogEntry)]) ++
        [({ method := "initialize", session := none } : LogEntry),
          ({ method := "notifications/initialized", session := cl₂.sessionId } : LogEntry)]) ++
        [({ method := method, session := cl₂.sessionId } : LogEntry)])).get? (log.length + 1) =
      some { method := "initialize", session := none }
    rw [List.append_assoc, List.append_assoc]
    rw [List.get?_append_right (by omega)]
    simp
  · intro hk
    have hv : v₃ = none := h404v hk
    subst hv
    rw [hfull]
  · intro s' m' hm1' hm2'
    exact send_request1_count s' m' hm1' hm2'

/-- Witness for C8: an expired session answered 404, a successful
re-handshake, and a retry that is answered 404 again; the original method
is posted exactly twice, the handshake carries no session token, and the
call surfaces failure. -/
theorem bounded_session_retry_witness :
    (countMethod (send_request1
        ⟨{ connected := true, sessionId := some "expired", requestId := 0 },
          [⟨none, .status 404⟩, ⟨some "fresh", .okJsonBody (.ok (.obj []))⟩,
            ⟨none, .accepted⟩, ⟨none, .status 404⟩], []⟩ "tools/call").2.log "tools/call" =
      countMethod [] "tools/call" + 2) ∧
    ((send_request1
        ⟨{ connected := true, sessionId := some "expired", requestId := 0 },
          [⟨none, .status 404⟩, ⟨some "fresh", .okJsonBody (.ok (.obj []))⟩,
            ⟨none, .accepted⟩, ⟨none, .status 404⟩], []⟩ "tools/call").2.log.get?
        (List.length ([] : List LogEntry) + 1) =
      some { method := "initialize", session := none }) ∧
    ((send_request1
        ⟨{ connected := true, sessionId := some "expired", requestId := 0 },
          [⟨none, .status 404⟩, ⟨some "fresh", .okJsonBody (.ok (.obj []))⟩,
            ⟨none, .accepted⟩, ⟨none, .status 404⟩], []⟩ "tools/call").1 = .ok none) := by
  have h := bounded_session_retry
    { connected := true, sessionId := some "expired", requestId := 0 } [] "tools/call"
    none ⟨some "fresh", .okJsonBody (.ok (.obj []))⟩ ⟨none, .accepted⟩
    ⟨none, .status 404⟩ [] rfl (by decide) (by decide)
  exact ⟨h.1, h.2.1, h.2.2.1 rfl⟩

/-! ## C10: stranded pre-assigned agents -/

theorem alookup_append {α : Type} :
    ∀ (l1 l2 : List (Nat × α)) (a : Nat),
      alookup (l1 ++ l2) a =
        match alookup l1 a with
        | some v => some v
        | none => alookup l2 a := by
  intro l1
  induction l1 with
  | nil => intro l2 a; rfl
  | cons p t ih =>
    intro l2 a
    obtain ⟨k, v⟩ := p
    rw [List.cons_append, alookup, alookup]
    by_cases hk : k = a
    · rw [if_pos hk, if_pos hk]
    · rw [if_neg hk, if_neg hk]
      exact ih l2 a

/-- The overwrite map of `dictSet` preserves lookups at other keys. -/
theorem alookup_overwrite_ne {α : Type} (k : Nat) (v : α) :
    ∀ (l : List (Nat × α)) (a : Nat), a ≠ k →
      alookup (l.map (fun p => if p.1 = k then (k, v) else p)) a = alookup l a := by
  intro l
  induction l with
  | nil => intro a _; rfl
  | cons p t ih =>
    intro a ha
    obtain ⟨k', v'⟩ := p
    rw [List.map_cons]
    by_cases hk' : k' = k
    · subst hk'
      rw [if_pos (show ((k', v') : Nat × α).1 = k' from rfl)]
      rw [alookup, alookup, if_neg (fun h : k' = a => ha h.symm),
        if_neg (fun h : k' = a => ha h.symm)]
      exact ih a ha
    · rw [if_neg (show ¬((k', v') : Nat × α).1 = k from hk')]
      rw [alookup, alookup]
      by_cases hk'' : k' = a
      · rw [if_pos hk'', if_pos hk'']
      · rw [if_neg hk'', if_neg hk'']
        exact ih a ha

/-- The overwrite map of `dictSet` replaces the value at a present key. -/
theorem alookup_overwrite_self {α : Type} (k : Nat) (v : α) :
    ∀ (l : List (Nat × α)), (alookup l k).isSome →
      alookup (l.map (fun p => if p.1 = k then (k, v) else p)) k = some v := by
  intro l
  induction l with
  | nil => intro hp; simp [alookup] at hp
  | cons p t ih =>
    intro hp
    obtain ⟨k', v'⟩ := p
    rw [List.map_cons]
    by_cases hk' : k' = k
    · subst hk'
      rw [if_pos (show ((k', v') : Nat × α).1 = k' from rfl)]
      rw [alookup, if_pos rfl]
    · rw [if_neg (show ¬((k', v') : Nat × α).1 = k from hk')]
      rw [alookup, if_neg hk']
      rw [alookup, if_neg hk'] at hp
      exact ih hp

theorem alookup_dictSet {α : Type} (l : List (Nat × α)) (k : Nat) (v : α) (a : Nat) :
    alookup (dictSet l k v) a = if a = k then some v else alookup l a := by
  unfold dictSet
  by_cases hp : (alookup l k).isSome
  · rw [if_pos hp]
    by_cases ha : a = k
    · subst ha
      rw [if_pos rfl]
      exact alookup_overwrite_self a v l hp
    · rw [if_neg ha]
      exact alookup_overwrite_ne k v l a ha
  · rw [if_neg hp]
    rw [alookup_append]
    rw [Option.not_isSome_iff_eq_none] at hp
    by_cases ha : a = k
    · subst ha
      rw [if_pos rfl, hp]
      show alookup [(a, v)] a = some v
      rw [alookup, if_pos rfl]
    · rw [if_neg ha]
      rcases h : alookup l a with _ | w
      · show alookup [(k, v)] a = none
        rw [alookup, if_neg (fun hh : k = a => ha hh.symm)]
        rfl
      · rfl

theorem alookup_map_keys {α β : Type} (g : Nat → α → β) :
    ∀ (l : List (Nat × α)) (a : Nat),
      alookup (l.map (fun p => (p.1, g p.1 p.2))) a = (alookup l a).map (g a) := by
  intro l
  induction l with
  | nil => intro a; rfl
  | cons p t ih =>
    intro a
    obtain ⟨k, v⟩ := p
    rw [List.map_cons]
    by_cases hk : k = a
    · subst hk
      rw [alookup, alookup, if_pos rfl, if_pos rfl]
      rfl
    · rw [alookup, alookup, if_neg hk, if_neg hk]
      exact ih a

/-- A per-key in-place modification preserves lookups at other keys. -/
theorem alookup_map_modify {α : Type} (aid : Nat) (f : α → α) :
    ∀ (l : List (Nat × α)) (a : Nat), a ≠ aid →
      alookup (l.map (fun p => if p.1 = aid then (p.1, f p.2) else p)) a = alookup l a := by
  intro l
  induction l with
  | nil => intro a _; rfl
  | cons p t ih =>
    intro a ha
    obtain ⟨k, v⟩ := p
    rw [List.map_cons]
    by_cases hk : k = aid
    · subst hk
      rw [if_pos (show ((k, v) : Nat × α).1 = k from rfl)]
      rw [alookup, alookup, if_neg (fun h : k = a => ha h.symm),
        if_neg (fun h : k = a => ha h.symm)]
      exact ih a ha
    · rw [if_neg (show ¬((k, v) : Nat × α).1 = aid from hk)]
      rw [alookup, alookup]
      by_cases hk' : k = a
      · rw [if_pos hk', if_pos hk']
      · rw [if_neg hk', if_neg hk']
        exact ih a ha

/-- `claim_item` never touches the status map. -/
theorem claim_item_statuses (st : OrchState) (aid : Nat) (item : String) :
    (claim_item st aid item).2.agent_statuses = st.agent_statuses := by
  unfold claim_item claim_update_result claim_insert
  by_cases hm : normalizeLabel item ∈ st.claimed_items
  · rw [if_pos hm]
  · rw [if_neg hm]
    split
    · rfl
    · rfl

/-- `claim_item` preserves result-map lookups at other agents, and any
lookup that was `none`. -/
theorem claim_item_results_ne (st : OrchState) (aid : Nat) (item : String)
    (a : Nat) (ha : a ≠ aid) :
    alookup (claim_item st aid item).2.agent_results a = alookup st.agent_results a := by
  unfold claim_item claim_update_result claim_insert
  by_cases hm : normalizeLabel item ∈ st.claimed_items
  · rw [if_pos hm]
  · rw [if_neg hm]
    split
    · exact alookup_map_modify aid
        (fun r => { r with claimed_item := some item }) st.agent_results a ha
    · rfl

theorem runClaimsFold_statuses (aid : Nat) :
    ∀ (items : List String) (st : OrchState),
      (items.foldl (fun s item => (claim_item s aid item).2) st).agent_statuses =
        st.agent_statuses := by
  intro items
  induction items with
  | nil => intro st; rfl
  | cons it rest ih =>
    intro st
    rw [List.foldl_cons, ih, claim_item_statuses]

theorem runClaimsFold_results_ne (aid : Nat) (a : Nat) (ha : a ≠ aid) :
    ∀ (items : List String) (st : OrchState),
      alookup (items.foldl (fun s item => (claim_item s aid item).2) st).agent_results a =
        alookup st.agent_results a := by
  intro items
  induction items with
  | nil => intro st; rfl
  | cons it rest ih =>
    intro st
    rw [List.foldl_cons, ih, claim_item_results_ne st aid it a ha]

/-- `runAgentTask` touches only its own agent's entries. -/
theorem runAgentTask_statuses_ne (st : OrchState) (aid : Nat) (b : AgentBehavior)
    (a : Nat) (ha : a ≠ aid) :
    alookup (runAgentTask st aid b).agent_statuses a = alookup st.agent_statuses a := by
  unfold runAgentTask
  rcases he : execResponseText b.outcome with e | text
  · show alookup (submit_error _ aid e).agent_statuses a = _
    unfold submit_error
    rw [alookup_dictSet, if_neg ha, runClaimsFold_statuses]
  · show alookup (submit_result _ aid text (extract_claimed_item text)).agent_statuses a = _
    unfold submit_result
    rw [alookup_dictSet, if_neg ha, runClaimsFold_statuses]

theorem runAgentTask_results_ne (st : OrchState) (aid : Nat) (b : AgentBehavior)
    (a : Nat) (ha : a ≠ aid) :
    alookup (runAgentTask st aid b).agent_results a = alookup st.agent_results a := by
  unfold runAgentTask
  rcases he : execResponseText b.outcome with e | text
  · show alookup (submit_error _ aid e).agent_results a = _
    unfold submit_error
    rw [alookup_dictSet, if_neg ha, runClaimsFold_results_ne aid a ha]
  · show alookup (submit_result _ aid text (extract_claimed_item text)).agent_results a = _
    unfold submit_result
    rw [alookup_dictSet, if_neg ha, runClaimsFold_results_ne aid a ha]

theorem runTasks_statuses_ne (behaviors : Nat → AgentBehavior) (a : Nat) :
    ∀ (tasks : List (Nat × String)) (st : OrchState), a ∉ tasks.map Prod.fst →
      alookup (runTasks behaviors st tasks).agent_statuses a =
        alookup st.agent_statuses a := by
  intro tasks
  induction tasks with
  | nil => intro st _; rfl
  | cons t rest ih =>
    intro st hmem
    rw [List.map_cons] at hmem
    have h1 : a ≠ t.1 := fun h => hmem (h ▸ List.mem_cons_self _ _)
    have h2 : a ∉ rest.map Prod.fst := fun h => hmem (List.mem_cons_of_mem _ h)
    show alookup (runTasks behaviors (runAgentTask st t.1 (behaviors t.1)) rest).agent_statuses a = _
    rw [ih _ h2, runAgentTask_statuses_ne st t.1 (behaviors t.1) a h1]

theorem runTasks_results_ne (behaviors : Nat → AgentBehavior) (a : Nat) :
    ∀ (tasks : List (Nat × String)) (st : OrchState), a ∉ tasks.map Prod.fst →
      alookup (runTasks behaviors st tasks).agent_results a =
        alookup st.agent_results a := by
  intro tasks
  induction tasks with
  | nil => intro st _; rfl
  | cons t rest ih =>
    intro st hmem
    rw [List.map_cons] at hmem
    have h1 : a ≠ t.1 := fun h => hmem (h ▸ List.mem_cons_self _ _)
    have h2 : a ∉ rest.map Prod.fst := fun h => hmem (List.mem_cons_of_mem _ h)
    show alookup (runTasks behaviors (runAgentTask st t.1 (behaviors t.1)) rest).agent_results a = _
    rw [ih _ h2, runAgentTask_results_ne st t.1 (behaviors t.1) a h1]

/-- Let-free unfolding equation for one step of the dispatch loop. -/
theorem swarmDispatch_cons (plan : TaskPlan) (st : OrchState) (i : Nat) (rest : List Nat) :
    swarmDispatch plan st (i :: rest) =
      match taskFor plan
          { st with agent_statuses := dictSet st.agent_statuses (i + 1) .working } i with
      | some prompt =>
        ((swarmDispatch plan
            { st with agent_statuses := dictSet st.agent_statuses (i + 1) .working } rest).1,
          (i + 1, prompt) ::
            (swarmDispatch plan
              { st with agent_statuses := dictSet st.agent_statuses (i + 1) .working } rest).2)
      | none =>
        swarmDispatch plan
          { st with agent_statuses := dictSet st.agent_statuses (i + 1) .working } rest := by
  rfl

/-- The dispatch loop never touches the result map. -/
theorem swarmDispatch_results (plan : TaskPlan) :
    ∀ (idxs : List Nat) (st : OrchState),
      (swarmDispatch plan st idxs).1.agent_results = st.agent_results := by
  intro idxs
  induction idxs with
  | nil => intro st; rfl
  | cons i rest ih =>
    intro st
    rw [swarmDispatch_cons]
    rcases htf : taskFor plan
        { st with agent_statuses := dictSet st.agent_statuses (i + 1) .working } i with _ | p
    · exact ih _
    · exact ih _

/-- Once marked `Working`, an agent stays `Working` through the rest of
the dispatch loop. -/
theorem swarmDispatch_statuses_mono (plan : TaskPlan) :
    ∀ (idxs : List Nat) (st : OrchState) (a : Nat),
      alookup st.agent_statuses a = some .working →
      alookup (swarmDispatch plan st idxs).1.agent_statuses a = some .working := by
  intro idxs
  induction idxs with
  | nil => intro st a h; exact h
  | cons i rest ih =>
    intro st a h
    have h' : alookup (dictSet st.agent_statuses (i + 1) .working) a = some .working := by
      rw [alookup_dictSet]
      by_cases ha : a = i + 1
      · rw [if_pos ha]
      · rw [if_neg ha]
        exact h
    rw [swarmDispatch_cons]
    rcases htf : taskFor plan
        { st with agent_statuses := dictSet st.agent_statuses (i + 1) .working } i with _ | p
    · exact ih _ a h'
    · exact ih _ a h'

/-- Every dispatched loop index marks its agent `Working`. -/
theorem swarmDispatch_statuses_working (plan : TaskPlan) :
    ∀ (idxs : List Nat) (st : OrchState) (i : Nat), i ∈ idxs →
      alookup (swarmDispatch plan st idxs).1.agent_statuses (i + 1) = some .working := by
  intro idxs
  induction idxs with
  | nil => intro st i h; cases h
  | cons j rest ih =>
    intro st i h
    rcases List.mem_cons.mp h with rfl | hmem
    · have h' : alookup (dictSet st.agent_statuses (i + 1) .working) (i + 1) =
          some .working := by
        rw [alookup_dictSet, if_pos rfl]
      rw [swarmDispatch_cons]
      rcases htf : taskFor plan
          { st with agent_statuses := dictSet st.agent_statuses (i + 1) .working } i with _ | p
      · exact swarmDispatch_statuses_mono plan rest _ (i + 1) h'
      · exact swarmDispatch_statuses_mono plan rest _ (i + 1) h'
    · rw [swarmDispatch_cons]
      rcases htf : taskFor plan
          { st with agent_statuses := dictSet st.agent_statuses (j + 1) .working } j with _ | p
      · exact ih _ i hmem
      · exact ih _ i hmem

/-- Every dispatched task of a pre-assigned plan is a position of the
sub-task list. -/
theorem swarmDispatch_tasks_pre (plan : TaskPlan) (hpre : plan.task_type = .pre_assigned) :
    ∀ (idxs : List Nat) (st : OrchState) (t : Nat × String),
      t ∈ (swarmDispatch plan st idxs).2 →
      ∃ i, i ∈ idxs ∧ t.1 = i + 1 ∧ plan.sub_tasks.get? i = some t.2 := by
  intro idxs
  induction idxs with
  | nil => intro st t h; cases h
  | cons j rest ih =>
    intro st t h
    rw [swarmDispatch_cons] at h
    rcases htf : taskFor plan
        { st with agent_statuses := dictSet st.agent_statuses (j + 1) .working } j with _ | p
    · rw [htf] at h
      obtain ⟨i, hi, h1, h2⟩ := ih _ t h
      exact ⟨i, List.mem_cons_of_mem _ hi, h1, h2⟩
    · rw [htf] at h
      rcases List.mem_cons.mp h with rfl | hmem
      · refine ⟨j, List.mem_cons_self _ _, rfl, ?_⟩
        unfold taskFor at htf
        rw [hpre] at htf
        exact htf
      · obtain ⟨i, hi, h1, h2⟩ := ih _ t hmem
        exact ⟨i, List.mem_cons_of_mem _ hi, h1, h2⟩

/-- Pointwise view of the `get_status` per-agent snapshot. -/
theorem get_status_agents_lookup (st : OrchState) (a : Nat) :
    alookup (get_status_agents st) a =
      (alookup st.agent_statuses a).map (fun v =>
        ({ status := v.valueStr
           claimed_item := match alookup st.agent_results a with
             | some r => r.claimed_item
             | none => none
           has_result := match alookup st.agent_results a with
             | some r => r.status = .done
             | none => false } : AgentStatusEntry)) := by
  unfold get_status_agents
  exact alookup_map_keys (fun k v =>
    ({ status := v.valueStr
       claimed_item := match alookup st.agent_results k with
         | some r => r.claimed_item
         | none => none
       has_result := match alookup st.agent_results k with
         | some r => r.status = .done
         | none => false } : AgentStatusEntry)) st.agent_statuses a

/-- C10: if `execute_swarm` runs a pre-assigned plan whose `target_count`
exceeds the number of sub-instructions, then every agent whose position
`i` is beyond the sub-task list (but below `target_count`) is never
dispatched (no dispatched task carries its agent id `i + 1`), ends the
run with status `Working` and no result entry, and `get_status` reports
it as `"working"` with no claimed item and no result — it never reaches a
terminal `Done`/`Error` state. -/
theorem stranded_agents_working
    (worker_count : Nat) (prompt : String)
    (planOracle : Except String String) (jloads : String → Except String Json)
    (behaviors : Nat → AgentBehavior) (synthOracle : Except String String)
    (st : OrchState) (i : Nat)
    (hplan : (parse_prompt worker_count prompt planOracle jloads).task_type = .pre_assigned)
    (hsub : (parse_prompt worker_count prompt planOracle jloads).sub_tasks.length ≤ i)
    (hi : i < (parse_prompt worker_count prompt planOracle jloads).target_count.toNat) :
    (∀ t ∈ (swarmDispatch (parse_prompt worker_count prompt planOracle jloads)
        (swarm_reset st (parse_prompt worker_count prompt planOracle jloads))
        (List.range (parse_prompt worker_count prompt planOracle jloads).target_count.toNat)).2,
      t.1 ≠ i + 1) ∧
    alookup (execute_swarm worker_count prompt planOracle jloads behaviors synthOracle
        st).2.agent_statuses (i + 1) = some .working ∧
    alookup (execute_swarm worker_count prompt planOracle jloads behaviors synthOracle
        st).2.agent_results (i + 1) = none ∧
    alookup (get_status_agents (execute_swarm worker_count prompt planOracle jloads behaviors
        synthOracle st).2) (i + 1) =
      some { status := "working", claimed_item := none, has_result := false } := by
  have hnd : ∀ t ∈ (swarmDispatch (parse_prompt worker_count prompt planOracle jloads)
      (swarm_reset st (parse_prompt worker_count prompt planOracle jloads))
      (List.range (parse_prompt worker_count prompt planOracle jloads).target_count.toNat)).2,
      t.1 ≠ i + 1 := by
    intro t ht hteq
    obtain ⟨j, hj, h1, h2⟩ := swarmDispatch_tasks_pre
      (parse_prompt worker_count prompt planOracle jloads) hplan
      (List.range (parse_prompt worker_count prompt planOracle jloads).target_count.toNat)
      (swarm_reset st (parse_prompt worker_count prompt planOracle jloads)) t ht
    have hji : j = i := by omega
    subst hji
    have hnone : (parse_prompt worker_count prompt planOracle jloads).sub_tasks.get? j =
        none := List.get?_eq_none.mpr hsub
    rw [hnone] at h2
    cases h2
  have hndm : (i + 1) ∉ (swarmDispatch (parse_prompt worker_count prompt planOracle jloads)
      (swarm_reset st (parse_prompt worker_count prompt planOracle jloads))
      (List.range (parse_prompt worker_count prompt planOracle jloads).target_count.toNat)).2.map
        Prod.fst := by
    intro hmem
    obtain ⟨t, ht, hteq⟩ := List.mem_map.mp hmem
    exact hnd t ht hteq
  have hstat : alookup (execute_swarm worker_count prompt planOracle jloads behaviors synthOracle
      st).2.agent_statuses (i + 1) = some .working := by
    show alookup (runTasks behaviors
      (swarmDispatch (parse_prompt worker_count prompt planOracle jloads)
        (swarm_reset st (parse_prompt worker_count prompt planOracle jloads))
        (List.range (parse_prompt worker_count prompt planOracle jloads).target_count.toNat)).1
      (swarmDispatch (parse_prompt worker_count prompt planOracle jloads)
        (swarm_reset st (parse_prompt worker_count prompt planOracle jloads))
        (List.range (parse_prompt worker_count prompt planOracle jloads).target_count.toNat)).2).agent_statuses
        (i + 1) = some .working
    rw [runTasks_statuses_ne behaviors (i + 1) _ _ hndm]
    exact swarmDispatch_statuses_working
      (parse_prompt worker_count prompt planOracle jloads)
      (List.range (parse_prompt worker_count prompt planOracle jloads).target_count.toNat)
      (swarm_reset st (parse_prompt worker_count prompt planOracle jloads)) i
      (List.mem_range.mpr hi)
  have hres : alookup (execute_swarm worker_count prompt planOracle jloads behaviors synthOracle
      st).2.agent_results (i + 1) = none := by
    show alookup (runTasks behaviors
      (swarmDispatch (parse_prompt worker_count prompt planOracle jloads)
        (swarm_reset st (parse_prompt worker_count prompt planOracle jloads))
        (List.range (parse_prompt worker_count prompt planOracle jloads).target_count.toNat)).1
      (swarmDispatch (parse_prompt worker_count prompt planOracle jloads)
        (swarm_reset st (parse_prompt worker_count prompt planOracle jloads))
        (List.range (parse_prompt worker_count prompt planOracle jloads).target_count.toNat)).2).agent_results
        (i + 1) = none
    rw [runTasks_results_ne behaviors (i + 1) _ _ hndm]
    rw [swarmDispatch_results (parse_prompt worker_count prompt planOracle jloads)
      (List.range (parse_prompt worker_count prompt planOracle jloads).target_count.toNat)
      (swarm_reset st (parse_prompt worker_count prompt planOracle jloads))]
    rfl
  have hgs : alookup (get_status_agents (execute_swarm worker_count prompt planOracle jloads
      behaviors synthOracle st).2) (i + 1) =
      some { status := "working", claimed_item := none, has_result := false } := by
    rw [get_status_agents_lookup, hstat, hres]
    rfl
  exact ⟨hnd, hstat, hres, hgs⟩

/-- A planning oracle decode yielding a pre-assigned plan with
`target_count` 3 but a single sub-instruction. -/
def preGapJloads : String → Except String Json := fun _ =>
  .ok (.obj [("task_type", .str "pre_assigned"), ("target_count", .num 3),
    ("sub_tasks", .arr [.str "t1"])])

/-- Remote agents that all fail with a transport error (irrelevant to the
stranded agent, which is never dispatched). -/
def preGapBehaviors : Nat → AgentBehavior := fun _ =>
  { claims := [], outcome := .exc "connection refused" }

theorem stranded_agents_working_witness :
    (parse_prompt 3 "p" (.ok "plan") preGapJloads).task_type = .pre_assigned ∧
    (parse_prompt 3 "p" (.ok "plan") preGapJloads).sub_tasks.length ≤ 1 ∧
    1 < (parse_prompt 3 "p" (.ok "plan") preGapJloads).target_count.toNat ∧
    (alookup (execute_swarm 3 "p" (.ok "plan") preGapJloads preGapBehaviors (.ok "synth")
        { worker_count := 3 }).2.agent_statuses 2 = some .working ∧
      alookup (execute_swarm 3 "p" (.ok "plan") preGapJloads preGapBehaviors (.ok "synth")
        { worker_count := 3 }).2.agent_results 2 = none ∧
      alookup (get_status_agents (execute_swarm 3 "p" (.ok "plan") preGapJloads preGapBehaviors
        (.ok "synth") { worker_count := 3 }).2) 2 =
        some { status := "working", claimed_item := none, has_result := false }) :=
  ⟨by decide, by decide, by decide,
    (stranded_agents_working 3 "p" (.ok "plan") preGapJloads preGapBehaviors (.ok "synth")
      { worker_count := 3 } 1 (by decide) (by decide) (by decide)).2⟩

/-! ## C4: result-level claimed items

`_execute_agent_task` (orchestrator.py lines 316-342) calls
`submit_result` with the regex-extracted `CLAIM:` line of the agent's own
response text, with no consultation of the claim registry, so the final
`claimed_item` of a dispatched agent's result is a pure function of that
agent's response text. -/

/-- The `claimed_item` that `_execute_agent_task` ends up storing for an
agent with the given behaviour: the first `CLAIM:` line of its response
on success, `None` on the error path (`submit_error`). -/
def finalClaimOf (b : AgentBehavior) : Option String :=
  match execResponseText b.outcome with
  | .ok text => extract_claimed_item text
  | .error _ => none

/-- One agent task always leaves a result entry for its own agent whose
`claimed_item` is `finalClaimOf` of its behaviour. -/
theorem runAgentTask_claim_self (st : OrchState) (aid : Nat) (b : AgentBehavior) :
    ∃ r, alookup (runAgentTask st aid b).agent_results aid = some r ∧
      r.claimed_item = finalClaimOf b := by
  unfold runAgentTask finalClaimOf
  rcases he : execResponseText b.outcome with e | text
  · refine ⟨{ agent_id := aid, claimed_item := none, result := ""
              status := .error, error := some e }, ?_, rfl⟩
    show alookup (submit_error
      (b.claims.foldl (fun s item => (claim_item s aid item).2) st) aid e).agent_results aid = _
    unfold submit_error
    rw [alookup_dictSet, if_pos rfl]
  · refine ⟨{ agent_id := aid, claimed_item := extract_claimed_item text, result := text
              status := .done }, ?_, rfl⟩
    show alookup (submit_result
      (b.claims.foldl (fun s item => (claim_item s aid item).2) st) aid text
      (extract_claimed_item text)).agent_results aid = _
    unfold submit_result
    rw [alookup_dictSet, if_pos rfl]

/-- Over a gather of agent tasks with pairwise-distinct agent ids, every
participating agent ends with a result entry whose `claimed_item` is
`finalClaimOf` of its behaviour — the claim registry never enters. -/
theorem runTasks_claim_of_mem (behaviors : Nat → AgentBehavior) :
    ∀ (tasks : List (Nat × String)) (st : OrchState) (a : Nat),
      (tasks.map Prod.fst).Nodup → a ∈ tasks.map Prod.fst →
      ∃ r, alookup (runTasks behaviors st tasks).agent_results a = some r ∧
        r.claimed_item = finalClaimOf (behaviors a) := by
  intro tasks
  induction tasks with
  | nil => intro st a _ h; cases h
  | cons t rest ih =>
    intro st a hnd hmem
    rw [List.map_cons] at hnd hmem
    rw [List.nodup_cons] at hnd
    rcases List.mem_cons.mp hmem with heq | hmem'
    · obtain ⟨r, hr, hc⟩ := runAgentTask_claim_self st t.1 (behaviors t.1)
      refine ⟨r, ?_, by rw [heq]; exact hc⟩
      show alookup (runTasks behaviors (runAgentTask st t.1 (behaviors t.1)) rest).agent_results a =
        some r
      rw [heq, runTasks_results_ne behaviors t.1 rest _ hnd.1]
      exact hr
    · obtain ⟨r, hr, hc⟩ := ih (runAgentTask st t.1 (behaviors t.1)) a hnd.2 hmem'
      exact ⟨r, hr, hc⟩

/-- The dispatched agent ids are (in order) a sublist of the successor
image of the loop indices. -/
theorem swarmDispatch_ids_sublist (plan : TaskPlan) :
    ∀ (idxs : List Nat) (st : OrchState),
      ((swarmDispatch plan st idxs).2.map Prod.fst).Sublist (idxs.map (· + 1)) := by
  intro idxs
  induction idxs with
  | nil => intro st; exact List.Sublist.refl _
  | cons i rest ih =>
    intro st
    rw [swarmDispatch_cons, List.map_cons]
    rcases htf : taskFor plan
        { st with agent_statuses := dictSet st.agent_statuses (i + 1) .working } i with _ | p
    · exact (ih _).cons _
    · exact (ih _).cons₂ _

/-- Dispatched agent ids are pairwise distinct when the loop indices are. -/
theorem swarmDispatch_ids_nodup (plan : TaskPlan) (idxs : List Nat) (st : OrchState)
    (h : idxs.Nodup) : ((swarmDispatch plan st idxs).2.map Prod.fst).Nodup :=
  List.Nodup.sublist (swarmDispatch_ids_sublist plan idxs st)
    (List.Nodup.map (fun a b hab => by omega) h)

/-- A planning oracle decode yielding a dynamic-discovery plan with two
agents. -/
def dynJloads : String → Except String Json := fun _ =>
  .ok (.obj [("task_type", .str "dynamic_discovery"), ("target_count", .num 2),
    ("base_task", .str "research YC companies")])

/-- Two agents whose response texts both lead with `CLAIM: Airbnb`: agent
2's registry claim of Airbnb is rejected and it claims Stripe instead,
but its response text still opens with the rejected `CLAIM:` line. -/
def dupBehaviors : Nat → AgentBehavior := fun aid =>
  if aid = 1 then
    { claims := ["Airbnb"],
      outcome := .resp 200
        (.ok (.obj [("response", .str "CLAIM: Airbnb\nAirbnb research notes")])) }
  else
    { claims := ["Airbnb", "Stripe"],
      outcome := .resp 200
        (.ok (.obj [("response",
          .str "CLAIM: Airbnb\nclaim rejected, switching\nCLAIM: Stripe\nStripe research notes")])) }

/-- C4 counterexample: a dynamic-discovery run in which two agents both
attempt to claim `"Airbnb"`, the registry grants it to exactly one of
them (`claimed_items` ends as `["airbnb", "stripe"]`), yet both final
`AgentRunResult`s carry `claimedItem "Airbnb"` — `submit_result` stores
the regex-extracted `CLAIM:` line of each agent's own response text
without consulting the registry. -/
theorem result_claim_duplicate_cex :
    (parse_prompt 2 "find companies" (.ok "plan") dynJloads).task_type =
      .dynamic_discovery ∧
    (alookup (execute_swarm 2 "find companies" (.ok "plan") dynJloads dupBehaviors
        (.ok "synth") { worker_count := 2 }).2.agent_results 1).map
      AgentResult.claimed_item = some (some "Airbnb") ∧
    (alookup (execute_swarm 2 "find companies" (.ok "plan") dynJloads dupBehaviors
        (.ok "synth") { worker_count := 2 }).2.agent_results 2).map
      AgentResult.claimed_item = some (some "Airbnb") ∧
    (execute_swarm 2 "find companies" (.ok "plan") dynJloads dupBehaviors
        (.ok "synth") { worker_count := 2 }).2.claimed_items = ["airbnb", "stripe"] := by
  refine ⟨by decide, by decide, by decide, by decide⟩

/-- C4 amended: the `claimed_item` stored on every dispatched agent's
final result is `finalClaimOf` of that agent's behaviour — the first
`CLAIM:` line of its own response text on success, `None` on error —
independently of the claim registry.  Consequently at most one result
carries a given label only under the hypothesis that at most one
dispatched agent's response text yields that label. -/
theorem result_claim_unique_amended
    (worker_count : Nat) (prompt : String)
    (planOracle : Except String String) (jloads : String → Except String Json)
    (behaviors : Nat → AgentBehavior) (synthOracle : Except String String)
    (st : OrchState) (L : String)
    (huniq : ∀ t ∈ (swarmDispatch (parse_prompt worker_count prompt planOracle jloads)
        (swarm_reset st (parse_prompt worker_count prompt planOracle jloads))
        (List.range (parse_prompt worker_count prompt planOracle jloads).target_count.toNat)).2,
      ∀ t' ∈ (swarmDispatch (parse_prompt worker_count prompt planOracle jloads)
        (swarm_reset st (parse_prompt worker_count prompt planOracle jloads))
        (List.range (parse_prompt worker_count prompt planOracle jloads).target_count.toNat)).2,
      finalClaimOf (behaviors t.1) = some L → finalClaimOf (behaviors t'.1) = some L →
        t.1 = t'.1) :
    (∀ t ∈ (swarmDispatch (parse_prompt worker_count prompt planOracle jloads)
        (swarm_reset st (parse_prompt worker_count prompt planOracle jloads))
        (List.range (parse_prompt worker_count prompt planOracle jloads).target_count.toNat)).2,
      ∃ r, alookup (execute_swarm worker_count prompt planOracle jloads behaviors synthOracle
          st).2.agent_results t.1 = some r ∧
        r.claimed_item = finalClaimOf (behaviors t.1)) ∧
    (∀ t ∈ (swarmDispatch (parse_prompt worker_count prompt planOracle jloads)
        (swarm_reset st (parse_prompt worker_count prompt planOracle jloads))
        (List.range (parse_prompt worker_count prompt planOracle jloads).target_count.toNat)).2,
      ∀ t' ∈ (swarmDispatch (parse_prompt worker_count prompt planOracle jloads)
        (swarm_reset st (parse_prompt worker_count prompt planOracle jloads))
        (List.range (parse_prompt worker_count prompt planOracle jloads).target_count.toNat)).2,
      ∀ r r',
        alookup (execute_swarm worker_count prompt planOracle jloads behaviors synthOracle
          st).2.agent_results t.1 = some r →
        alookup (execute_swarm worker_count prompt planOracle jloads behaviors synthOracle
          st).2.agent_results t'.1 = some r' →
        r.claimed_item = some L → r'.claimed_item = some L → t.1 = t'.1) := by
  have hnd : ((swarmDispatch (parse_prompt worker_count prompt planOracle jloads)
      (swarm_reset st (parse_prompt worker_count prompt planOracle jloads))
      (List.range (parse_prompt worker_count prompt planOracle jloads).target_count.toNat)).2.map
        Prod.fst).Nodup :=
    swarmDispatch_ids_nodup _ _ _ (List.nodup_range _)
  have hpart1 : ∀ t ∈ (swarmDispatch (parse_prompt worker_count prompt planOracle jloads)
      (swarm_reset st (parse_prompt worker_count prompt planOracle jloads))
      (List.range (parse_prompt worker_count prompt planOracle jloads).target_count.toNat)).2,
      ∃ r, alookup (execute_swarm worker_count prompt planOracle jloads behaviors synthOracle
          st).2.agent_results t.1 = some r ∧
        r.claimed_item = finalClaimOf (behaviors t.1) := by
    intro t ht
    have hmem : t.1 ∈ (swarmDispatch (parse_prompt worker_count prompt planOracle jloads)
        (swarm_reset st (parse_prompt worker_count prompt planOracle jloads))
        (List.range
          (parse_prompt worker_count prompt planOracle jloads).target_count.toNat)).2.map
        Prod.fst := List.mem_map.mpr ⟨t, ht, rfl⟩
    obtain ⟨r, hr, hc⟩ := runTasks_claim_of_mem behaviors _ _ t.1 hnd hmem
    exact ⟨r, hr, hc⟩
  refine ⟨hpart1, ?_⟩
  intro t ht t' ht' r r' hr hr' hcl hcl'
  obtain ⟨r0, hr0, hc0⟩ := hpart1 t ht
  obtain ⟨r0', hr0', hc0'⟩ := hpart1 t' ht'
  have he : r = r0 := Option.some.inj (hr.symm.trans hr0)
  have he' : r' = r0' := Option.some.inj (hr'.symm.trans hr0')
  refine huniq t ht t' ht' ?_ ?_
  · rw [← hc0, ← he]
    exact hcl
  · rw [← hc0', ← he']
    exact hcl'

/-- Behaviours over the same two-agent dynamic plan in which the agents'
response texts carry distinct `CLAIM:` lines. -/
def distinctBehaviors : Nat → AgentBehavior := fun aid =>
  if aid = 1 then
    { claims := ["Airbnb"],
      outcome := .resp 200
        (.ok (.obj [("response", .str "CLAIM: Airbnb\nAirbnb research notes")])) }
  else
    { claims := ["Stripe"],
      outcome := .resp 200
        (.ok (.obj [("response", .str "CLAIM: Stripe\nStripe research notes")])) }

theorem result_claim_unique_amended_witness :
    (∀ t ∈ (swarmDispatch (parse_prompt 2 "find companies" (.ok "plan") dynJloads)
        (swarm_reset { worker_count := 2 } (parse_prompt 2 "find companies" (.ok "plan") dynJloads))
        (List.range
          (parse_prompt 2 "find companies" (.ok "plan") dynJloads).target_count.toNat)).2,
      ∀ t' ∈ (swarmDispatch (parse_prompt 2 "find companies" (.ok "plan") dynJloads)
        (swarm_reset { worker_count := 2 } (parse_prompt 2 "find companies" (.ok "plan") dynJloads))
        (List.range
          (parse_prompt 2 "find companies" (.ok "plan") dynJloads).target_count.toNat)).2,
      finalClaimOf (distinctBehaviors t.1) = some "Airbnb" →
      finalClaimOf (distinctBehaviors t'.1) = some "Airbnb" → t.1 = t'.1) ∧
    (∀ t ∈ (swarmDispatch (parse_prompt 2 "find companies" (.ok "plan") dynJloads)
        (swarm_reset { worker_count := 2 } (parse_prompt 2 "find companies" (.ok "plan") dynJloads))
        (List.range
          (parse_prompt 2 "find companies" (.ok "plan") dynJloads).target_count.toNat)).2,
      ∀ t' ∈ (swarmDispatch (parse_prompt 2 "find companies" (.ok "plan") dynJloads)
        (swarm_reset { worker_count := 2 } (parse_prompt 2 "find companies" (.ok "plan") dynJloads))
        (List.range
          (parse_prompt 2 "find companies" (.ok "plan") dynJloads).target_count.toNat)).2,
      ∀ r r',
        alookup (execute_swarm 2 "find companies" (.ok "plan") dynJloads distinctBehaviors
          (.ok "synth") { worker_count := 2 }).2.agent_results t.1 = some r →
        alookup (execute_swarm 2 "find companies" (.ok "plan") dynJloads distinctBehaviors
          (.ok "synth") { worker_count := 2 }).2.agent_results t'.1 = some r' →
        r.claimed_item = some "Airbnb" → r'.claimed_item = some "Airbnb" → t.1 = t'.1) :=
  ⟨by decide,
    (result_claim_unique_amended 2 "find companies" (.ok "plan") dynJloads distinctBehaviors
      (.ok "synth") { worker_count := 2 } "Airbnb" (by decide)).2⟩

/-! ## C2: the worker-state invariant over the pool's small-step model

`shutdown` (worker_pool.py lines 325-333) sets every worker to `Stopping`
without clearing `current_task`/`assigned_company`, so the claimed iff
between a non-null `current_task` and the `Running` status breaks on a
shutdown that lands while an assignment is in flight.  The invariant does
hold on every schedule without a `shutdown`, and the serialization parts
of the claim (at most one in-flight assignment per worker; an assignment
marks a worker `Running` only when it is `Idle` at that instant) hold on
all schedules. -/

theorem countP_set_eq {α : Type} (q : α → Bool) :
    ∀ (l : List α) (i : Nat) (p p' : α), l.get? i = some p →
      (l.set i p').countP q + (if q p then 1 else 0) =
        l.countP q + (if q p' then 1 else 0) := by
  intro l
  induction l with
  | nil => intro i p p' h; cases h
  | cons a t ih =>
    intro i p p' h
    cases i with
    | zero =>
      have ha : a = p := by
        have : some a = some p := h
        exact Option.some.inj this
      subst ha
      rw [List.set_cons_zero, List.countP_cons, List.countP_cons]
      omega
    | succ n =>
      have h' : t.get? n = some p := h
      rw [List.set_cons_succ, List.countP_cons, List.countP_cons]
      have := ih n p p' h'
      omega

theorem get?_set_self {α : Type} :
    ∀ (l : List α) (i : Nat) (a b : α),
      l.get? i = some a → (l.set i b).get? i = some b := by
  intro l
  induction l with
  | nil => intro i a b h; cases h
  | cons x t ih =>
    intro i a b h
    cases i with
    | zero => rfl
    | succ n => exact ih n a b h

theorem count_set_same {α : Type} (q : α → Bool) (l : List α) (i : Nat) (p p' : α)
    (h : l.get? i = some p) (hq : q p = q p') :
    (l.set i p').countP q = l.countP q := by
  have hc := countP_set_eq q l i p p' h
  rw [hq] at hc
  omega

theorem count_set_drop {α : Type} (q : α → Bool) (l : List α) (i : Nat) (p p' : α)
    (h : l.get? i = some p) (hq : q p = true) (hq' : q p' = false) :
    (l.set i p').countP q + 1 = l.countP q := by
  have hc := countP_set_eq q l i p p' h
  rw [hq, hq'] at hc
  simpa using hc

theorem count_set_add {α : Type} (q : α → Bool) (l : List α) (i : Nat) (p p' : α)
    (h : l.get? i = some p) (hq : q p = false) (hq' : q p' = true) :
    (l.set i p').countP q = l.countP q + 1 := by
  have hc := countP_set_eq q l i p p' h
  rw [hq, hq'] at hc
  simpa using hc

theorem wlookup_wmapAll (ws : Workers) (f : WorkerInstance → WorkerInstance) (wid : Nat) :
    wlookup (wmapAll ws f) wid = (wlookup ws wid).map f := by
  induction ws with
  | nil => rfl
  | cons p t ih =>
    obtain ⟨k, w⟩ := p
    rw [wmapAll, wlookup, wlookup]
    by_cases hk : k = wid
    · rw [if_pos hk, if_pos hk]
      rfl
    · rw [if_neg hk, if_neg hk]
      exact ih

theorem probeStatus_ne_running (o : RemoteOutcome) : probeStatus o ≠ .running := by
  unfold probeStatus
  split <;> decide

theorem probeStatus_ne_stopping (o : RemoteOutcome) : probeStatus o ≠ .stopping := by
  unfold probeStatus
  split <;> decide

theorem inflight_append (ps l : List PoolProc) (wid : Nat) :
    inflight (ps ++ l) wid = inflight ps wid + inflight l wid := by
  unfold inflight
  exact List.countP_append _ _ _

theorem probes_append (ps l : List PoolProc) (wid : Nat) :
    probes (ps ++ l) wid = probes ps wid + probes l wid := by
  unfold probes
  exact List.countP_append _ _ _

theorem inflight_starts_zero (l : List PoolProc)
    (h : ∀ p ∈ l, ∃ w c t o, p = PoolProc.assignStart w c t o) (wid : Nat) :
    inflight l wid = 0 := by
  unfold inflight
  apply List.countP_eq_zero.mpr
  intro p hp
  obtain ⟨w, c, t, o, rfl⟩ := h p hp
  simp

theorem probes_starts_zero (l : List PoolProc)
    (h : ∀ p ∈ l, ∃ w c t o, p = PoolProc.assignStart w c t o) (wid : Nat) :
    probes l wid = 0 := by
  unfold probes
  apply List.countP_eq_zero.mpr
  intro p hp
  obtain ⟨w, c, t, o, rfl⟩ := h p hp
  simp

/-- Per-worker pool invariant: at most one in-flight assignment and at
most one pending probe; a missing worker has no in-flight assignment; a
pending probe implies a `Starting`/`Stopping` worker with no in-flight
assignment; an in-flight assignment implies a `Running`/`Stopping` worker
carrying its task fields; a `Running` worker has exactly one in-flight
assignment; a worker with no in-flight assignment carries no task
fields. -/
def PoolInvAt (ws : Workers) (ps : List PoolProc) (wid : Nat) : Prop :=
  inflight ps wid ≤ 1 ∧
  probes ps wid ≤ 1 ∧
  (wlookup ws wid = none → inflight ps wid = 0) ∧
  ∀ w, wlookup ws wid = some w →
    (probes ps wid = 1 →
      (w.status = .starting ∨ w.status = .stopping) ∧ inflight ps wid = 0) ∧
    (inflight ps wid = 1 →
      (w.status = .running ∨ w.status = .stopping) ∧
      w.current_task ≠ none ∧ w.assigned_company ≠ none) ∧
    (w.status = .running → inflight ps wid = 1) ∧
    (inflight ps wid = 0 → w.current_task = none ∧ w.assigned_company = none)

def PoolInv (s : PoolSys) : Prop := ∀ wid, PoolInvAt s.workers s.procs wid

theorem poolInvAt_congr (ws ws' : Workers) (ps ps' : List PoolProc) (wid : Nat)
    (hl : wlookup ws' wid = wlookup ws wid)
    (hinf : inflight ps' wid = inflight ps wid)
    (hpr : probes ps' wid = probes ps wid)
    (h : PoolInvAt ws ps wid) : PoolInvAt ws' ps' wid := by
  unfold PoolInvAt at h ⊢
  rw [hl, hinf, hpr]
  exact h

/-! Branch equations for `stepProc`. -/

theorem stepProc_eq_missing (parseVal : String → String × String × String)
    (s : PoolSys) (i : Nat) (h : s.procs.get? i = none) :
    stepProc parseVal s i = s := by
  unfold stepProc
  rw [h]

theorem stepProc_eq_probeStart_miss (parseVal : String → String × String × String)
    (s : PoolSys) (i : Nat) (wid : Nat) (o : RemoteOutcome)
    (h : s.procs.get? i = some (.probeStart wid o))
    (hw : wlookup s.workers wid = none) :
    stepProc parseVal s i = { s with procs := setProc s.procs i (.finished none) } := by
  unfold stepProc
  rw [h]
  show (match wlookup s.workers wid with
    | none => ({ s with procs := setProc s.procs i (.finished none) } : PoolSys)
    | some _ => { s with procs := setProc s.procs i (.probeWait wid o) }) = _
  rw [hw]

theorem stepProc_eq_probeStart_hit (parseVal : String → String × String × String)
    (s : PoolSys) (i : Nat) (wid : Nat) (o : RemoteOutcome) (w : WorkerInstance)
    (h : s.procs.get? i = some (.probeStart wid o))
    (hw : wlookup s.workers wid = some w) :
    stepProc parseVal s i = { s with procs := setProc s.procs i (.probeWait wid o) } := by
  unfold stepProc
  rw [h]
  show (match wlookup s.workers wid with
    | none => ({ s with procs := setProc s.procs i (.finished none) } : PoolSys)
    | some _ => { s with procs := setProc s.procs i (.probeWait wid o) }) = _
  rw [hw]

theorem stepProc_eq_probeWait (parseVal : String → String × String × String)
    (s : PoolSys) (i : Nat) (wid : Nat) (o : RemoteOutcome)
    (h : s.procs.get? i = some (.probeWait wid o)) :
    stepProc parseVal s i =
      { workers := wupdate s.workers wid (fun w => { w with status := probeStatus o })
        procs := setProc s.procs i (.finished none) } := by
  unfold stepProc
  rw [h]

/-- The `Finished` coroutine value of an `assign_task` whose worker was
missing (line 135 of worker_pool.py). -/
def assignMissProc (wid : Nat) (c : String) : PoolProc :=
  .finished (some (failedResult wid c ("Worker " ++ toString wid ++ " not found")))

/-- The `Finished` coroutine value of an `assign_task` whose worker was
not idle (lines 143-150). -/
def assignBusyProc (wid : Nat) (c : String) (st : WorkerStatus) : PoolProc :=
  .finished (some (failedResult wid c
    ("Worker " ++ toString wid ++ " is not idle (status: " ++ st.valueStr ++ ")")))

/-- The state update of the mark-Running segment (lines 152-155). -/
def markRunning (s : PoolSys) (i : Nat) (wid : Nat) (c p : String)
    (o : RemoteOutcome) : PoolSys :=
  { workers := wupdate s.workers wid (fun w =>
      { w with status := .running, current_task := some p, assigned_company := some c })
    procs := setProc s.procs i (.assignWait wid c p o) }

theorem stepProc_eq_assignStart_miss (parseVal : String → String × String × String)
    (s : PoolSys) (i : Nat) (wid : Nat) (c p : String) (o : RemoteOutcome)
    (h : s.procs.get? i = some (.assignStart wid c p o))
    (hw : wlookup s.workers wid = none) :
    stepProc parseVal s i = { s with procs := setProc s.procs i (assignMissProc wid c) } := by
  unfold stepProc
  rw [h]
  show (match wlookup s.workers wid with
    | none => ({ s with procs := setProc s.procs i (assignMissProc wid c) } : PoolSys)
    | some worker =>
      if worker.status ≠ .idle then
        { s with procs := setProc s.procs i (assignBusyProc wid c worker.status) }
      else markRunning s i wid c p o) = _
  rw [hw]

theorem stepProc_eq_assignStart_busy (parseVal : String → String × String × String)
    (s : PoolSys) (i : Nat) (wid : Nat) (c p : String) (o : RemoteOutcome) (w : WorkerInstance)
    (h : s.procs.get? i = some (.assignStart wid c p o))
    (hw : wlookup s.workers wid = some w) (hs : w.status ≠ .idle) :
    stepProc parseVal s i =
      { s with procs := setProc s.procs i (assignBusyProc wid c w.status) } := by
  unfold stepProc
  rw [h]
  show (match wlookup s.workers wid with
    | none => ({ s with procs := setProc s.procs i (assignMissProc wid c) } : PoolSys)
    | some worker =>
      if worker.status ≠ .idle then
        { s with procs := setProc s.procs i (assignBusyProc wid c worker.status) }
      else markRunning s i wid c p o) = _
  rw [hw]
  show (if w.status ≠ .idle then
      ({ s with procs := setProc s.procs i (assignBusyProc wid c w.status) } : PoolSys)
    else markRunning s i wid c p o) = _
  rw [if_pos hs]

theorem stepProc_eq_assignStart_idle (parseVal : String → String × String × String)
    (s : PoolSys) (i : Nat) (wid : Nat) (c p : String) (o : RemoteOutcome) (w : WorkerInstance)
    (h : s.procs.get? i = some (.assignStart wid c p o))
    (hw : wlookup s.workers wid = some w) (hs : w.status = .idle) :
    stepProc parseVal s i = markRunning s i wid c p o := by
  unfold stepProc
  rw [h]
  show (match wlookup s.workers wid with
    | none => ({ s with procs := setProc s.procs i (assignMissProc wid c) } : PoolSys)
    | some worker =>
      if worker.status ≠ .idle then
        { s with procs := setProc s.procs i (assignBusyProc wid c worker.status) }
      else markRunning s i wid c p o) = _
  rw [hw]
  show (if w.status ≠ .idle then
      ({ s with procs := setProc s.procs i (assignBusyProc wid c w.status) } : PoolSys)
    else markRunning s i wid c p o) = _
  rw [if_neg (fun hne => hne hs)]

theorem stepProc_eq_assignWait (parseVal : String → String × String × String)
    (s : PoolSys) (i : Nat) (wid : Nat) (c p : String) (o : RemoteOutcome)
    (h : s.procs.get? i = some (.assignWait wid c p o)) :
    stepProc parseVal s i =
      { workers := wupdate s.workers wid (fun w =>
          { w with status := .idle, current_task := none, assigned_company := none })
        procs := setProc s.procs i
          (.finished (some (assign_result parseVal wid c o))) } := by
  unfold stepProc
  rw [h]

theorem stepProc_eq_finished (parseVal : String → String × String × String)
    (s : PoolSys) (i : Nat) (r : Option TaskResult)
    (h : s.procs.get? i = some (.finished r)) :
    stepProc parseVal s i = s := by
  unfold stepProc
  rw [h]

/-! Base case: the pool right after `initialize`. -/

theorem wlookup_map_mk (g : Nat → WorkerInstance) :
    ∀ (l : List Nat) (wid : Nat) (w : WorkerInstance),
      wlookup (l.map (fun i => (i + 1, g i))) wid = some w → ∃ i ∈ l, w = g i := by
  intro l
  induction l with
  | nil => intro wid w h; cases h
  | cons j t ih =>
    intro wid w h
    rw [List.map_cons, wlookup] at h
    by_cases hj : j + 1 = wid
    · rw [if_pos hj] at h
      exact ⟨j, List.mem_cons_self _ _, (Option.some.inj h).symm⟩
    · rw [if_neg hj] at h
      obtain ⟨i, hi, hw⟩ := ih wid w h
      exact ⟨i, List.mem_cons_of_mem _ hi, hw⟩

theorem initPool_workers_fields (size : Nat) (po : Nat → RemoteOutcome) (wid : Nat)
    (w : WorkerInstance) (h : wlookup (initPool size po).workers wid = some w) :
    w.status = .starting ∧ w.current_task = none ∧ w.assigned_company = none := by
  obtain ⟨i, _, hw⟩ := wlookup_map_mk
    (fun i => { config := generate_worker_config (i + 1)
                status := .starting, current_task := none, assigned_company := none })
    (List.range size) wid w h
  subst hw
  exact ⟨rfl, rfl, rfl⟩

theorem countP_range_succ_pred (wid : Nat) :
    ∀ n : Nat, (List.range n).countP (fun i => i + 1 = wid) =
      if 1 ≤ wid ∧ wid ≤ n then 1 else 0 := by
  intro n
  induction n with
  | zero => rw [List.range_zero, List.countP_nil, if_neg (by omega)]
  | succ n ih =>
    rw [List.range_succ, List.countP_append, ih, List.countP_cons, List.countP_nil]
    simp only [decide_eq_true_eq]
    split_ifs <;> omega

theorem inflight_init (size : Nat) (po : Nat → RemoteOutcome) (wid : Nat) :
    inflight (initPool size po).procs wid = 0 := by
  unfold initPool inflight
  apply List.countP_eq_zero.mpr
  intro p hp
  obtain ⟨i, _, rfl⟩ := List.mem_map.mp hp
  simp

theorem probes_init (size : Nat) (po : Nat → RemoteOutcome) (wid : Nat) :
    probes (initPool size po).procs wid ≤ 1 := by
  unfold initPool probes
  rw [List.countP_map]
  have he : ((List.range size).countP
      ((fun p => match p with
        | PoolProc.probeStart w _ => w = wid
        | PoolProc.probeWait w _ => w = wid
        | _ => false) ∘ (fun i => PoolProc.probeStart (i + 1) (po (i + 1))))) =
      (List.range size).countP (fun i => i + 1 = wid) := by
    apply List.countP_congr
    intro i _
    rfl
  rw [he, countP_range_succ_pred]
  split_ifs <;> omega

/-- The pool invariant is preserved by every atomic step. -/
theorem poolStep_inv (parseVal : String → String × String × String) (s : PoolSys)
    (a : PoolAct) (h : PoolInv s) : PoolInv (poolStep parseVal s a) := by
  cases a with
  | getStatus => exact h
  | shutdown =>
    intro wid
    show PoolInvAt (wmapAll s.workers (fun w => { w with status := .stopping })) s.procs wid
    obtain ⟨h1, h2, h3, h4⟩ := h wid
    unfold PoolInvAt
    refine ⟨h1, h2, ?_, ?_⟩
    · intro hn
      rw [wlookup_wmapAll] at hn
      rcases hx : wlookup s.workers wid with _ | w0
      · exact h3 hx
      · rw [hx] at hn
        simp at hn
    · intro w hwx
      rw [wlookup_wmapAll] at hwx
      rcases hx : wlookup s.workers wid with _ | w0
      · rw [hx] at hwx
        simp at hwx
      · rw [hx] at hwx
        simp only [Option.map_some'] at hwx
        have hwe := (Option.some.inj hwx).symm
        subst hwe
        obtain ⟨c1, c2, c3, c4⟩ := h4 w0 hx
        refine ⟨fun hp1 => ⟨Or.inr rfl, (c1 hp1).2⟩,
          fun hi1 => ⟨Or.inr rfl, (c2 hi1).2⟩, ?_, fun h0 => c4 h0⟩
        intro hr
        exact absurd (show WorkerStatus.stopping = WorkerStatus.running from hr) (by decide)
  | spawnAssign wid0 c p o =>
    intro wid
    show PoolInvAt s.workers (s.procs ++ [.assignStart wid0 c p o]) wid
    have hz : inflight [PoolProc.assignStart wid0 c p o] wid = 0 :=
      inflight_starts_zero _ (fun p0 hp0 => ⟨wid0, c, p, o, List.mem_singleton.mp hp0⟩) wid
    have hz' : probes [PoolProc.assignStart wid0 c p o] wid = 0 :=
      probes_starts_zero _ (fun p0 hp0 => ⟨wid0, c, p, o, List.mem_singleton.mp hp0⟩) wid
    refine poolInvAt_congr s.workers s.workers s.procs _ wid rfl ?_ ?_ (h wid)
    · rw [inflight_append, hz]
      omega
    · rw [probes_append, hz']
      omega
  | spawnParallel tasks outcomes =>
    by_cases hie : (get_idle_workers s.workers tasks.length).isEmpty
    · have he : poolStep parseVal s (.spawnParallel tasks outcomes) = s := by
        show (if (get_idle_workers s.workers tasks.length).isEmpty then s
          else { s with procs := s.procs ++
            ((get_idle_workers s.workers tasks.length).zip tasks).map (fun q =>
              .assignStart q.1.config.worker_id q.2.1 q.2.2
                (outcomes q.1.config.worker_id)) }) = s
        rw [if_pos hie]
      rw [he]
      exact h
    · have he : poolStep parseVal s (.spawnParallel tasks outcomes) =
          { s with procs := s.procs ++
            ((get_idle_workers s.workers tasks.length).zip tasks).map (fun q =>
              .assignStart q.1.config.worker_id q.2.1 q.2.2
                (outcomes q.1.config.worker_id)) } := by
        show (if (get_idle_workers s.workers tasks.length).isEmpty then s
          else { s with procs := s.procs ++
            ((get_idle_workers s.workers tasks.length).zip tasks).map (fun q =>
              .assignStart q.1.config.worker_id q.2.1 q.2.2
                (outcomes q.1.config.worker_id)) }) = _
        rw [if_neg hie]
      rw [he]
      intro wid
      have hsh : ∀ p0 ∈ ((get_idle_workers s.workers tasks.length).zip tasks).map (fun q =>
          PoolProc.assignStart q.1.config.worker_id q.2.1 q.2.2
            (outcomes q.1.config.worker_id)),
          ∃ w c t o, p0 = PoolProc.assignStart w c t o := by
        intro p0 hp0
        obtain ⟨q, _, rfl⟩ := List.mem_map.mp hp0
        exact ⟨_, _, _, _, rfl⟩
      refine poolInvAt_congr s.workers s.workers s.procs _ wid rfl ?_ ?_ (h wid)
      · rw [inflight_append, inflight_starts_zero _ hsh wid]
        omega
      · rw [probes_append, probes_starts_zero _ hsh wid]
        omega
  | runProc i =>
    show PoolInv (stepProc parseVal s i)
    rcases hp : s.procs.get? i with _ | proc
    · rw [stepProc_eq_missing parseVal s i hp]
      exact h
    · cases proc with
      | finished r =>
        rw [stepProc_eq_finished parseVal s i r hp]
        exact h
      | probeStart wid0 o =>
        rcases hw : wlookup s.workers wid0 with _ | w0
        · rw [stepProc_eq_probeStart_miss parseVal s i wid0 o hp hw]
          intro wid
          show PoolInvAt s.workers (setProc s.procs i (.finished none)) wid
          by_cases hww : wid0 = wid
          · subst hww
            obtain ⟨h1, h2, h3, h4⟩ := h wid0
            have hinf : inflight (setProc s.procs i (.finished none)) wid0 =
                inflight s.procs wid0 :=
              count_set_same _ s.procs i _ _ hp rfl
            have hpr : probes (setProc s.procs i (.finished none)) wid0 + 1 =
                probes s.procs wid0 :=
              count_set_drop _ s.procs i _ _ hp (by simp) rfl
            unfold PoolInvAt
            refine ⟨by rw [hinf]; exact h1, by omega, ?_, ?_⟩
            · intro _
              rw [hinf]
              exact h3 hw
            · intro w hwx
              rw [hw] at hwx
              exact Option.noConfusion hwx
          · refine poolInvAt_congr s.workers s.workers s.procs _ wid rfl ?_ ?_ (h wid)
            · exact count_set_same _ s.procs i _ _ hp rfl
            · exact count_set_same _ s.procs i _ _ hp (by simp [hww])
        · rw [stepProc_eq_probeStart_hit parseVal s i wid0 o w0 hp hw]
          intro wid
          show PoolInvAt s.workers (setProc s.procs i (.probeWait wid0 o)) wid
          refine poolInvAt_congr s.workers s.workers s.procs _ wid rfl ?_ ?_ (h wid)
          · exact count_set_same _ s.procs i _ _ hp rfl
          · exact count_set_same _ s.procs i _ _ hp rfl
      | probeWait wid0 o =>
        rw [stepProc_eq_probeWait parseVal s i wid0 o hp]
        intro wid
        show PoolInvAt
          (wupdate s.workers wid0 (fun w => { w with status := probeStatus o }))
          (setProc s.procs i (.finished none)) wid
        by_cases hww : wid0 = wid
        · subst hww
          obtain ⟨h1, h2, h3, h4⟩ := h wid0
          have hinf : inflight (setProc s.procs i (.finished none)) wid0 =
              inflight s.procs wid0 :=
            count_set_same _ s.procs i _ _ hp rfl
          have hpr : probes (setProc s.procs i (.finished none)) wid0 + 1 =
              probes s.procs wid0 :=
            count_set_drop _ s.procs i _ _ hp (by simp) rfl
          unfold PoolInvAt
          refine ⟨by rw [hinf]; exact h1, by omega, ?_, ?_⟩
          · intro hn
            rw [wlookup_wupdate] at hn
            rcases hx : wlookup s.workers wid0 with _ | w0
            · rw [hinf]
              exact h3 hx
            · rw [hx] at hn
              simp at hn
          · intro w hwx
            rw [wlookup_wupdate] at hwx
            rcases hx : wlookup s.workers wid0 with _ | w0
            · rw [hx] at hwx
              simp at hwx
            · rw [hx] at hwx
              simp only [Option.map_some'] at hwx
              have hwe := (Option.some.inj hwx).symm
              subst hwe
              obtain ⟨c1, c2, c3, c4⟩ := h4 w0 hx
              have hop : probes s.procs wid0 = 1 := by omega
              have hoinf : inflight s.procs wid0 = 0 := (c1 hop).2
              have h0t := c4 hoinf
              refine ⟨?_, ?_, ?_, fun _ => h0t⟩
              · intro hp1
                exfalso
                omega
              · intro hi1
                rw [hinf] at hi1
                exfalso
                omega
              · intro hr
                exact absurd hr (probeStatus_ne_running o)
        · refine poolInvAt_congr s.workers _ s.procs _ wid
            (wlookup_wupdate_ne s.workers wid0 wid _ (fun he => hww he.symm)) ?_ ?_ (h wid)
          · exact count_set_same _ s.procs i _ _ hp rfl
          · exact count_set_same _ s.procs i _ _ hp (by simp [hww])
      | assignStart wid0 c p o =>
        rcases hw : wlookup s.workers wid0 with _ | w0
        · rw [stepProc_eq_assignStart_miss parseVal s i wid0 c p o hp hw]
          intro wid
          show PoolInvAt s.workers (setProc s.procs i (assignMissProc wid0 c)) wid
          refine poolInvAt_congr s.workers s.workers s.procs _ wid rfl ?_ ?_ (h wid)
          · exact count_set_same _ s.procs i _ _ hp rfl
          · exact count_set_same _ s.procs i _ _ hp rfl
        · by_cases hs : w0.status = .idle
          · rw [stepProc_eq_assignStart_idle parseVal s i wid0 c p o w0 hp hw hs]
            intro wid
            show PoolInvAt
              (wupdate s.workers wid0 (fun w =>
                { w with status := .running
                         current_task := some p
                         assigned_company := some c }))
              (setProc s.procs i (.assignWait wid0 c p o)) wid
            by_cases hww : wid0 = wid
            · subst hww
              obtain ⟨h1, h2, h3, h4⟩ := h wid0
              obtain ⟨c1, c2, c3, c4⟩ := h4 w0 hw
              have hoinf : inflight s.procs wid0 = 0 := by
                by_cases hz : inflight s.procs wid0 = 0
                · exact hz
                · exfalso
                  have hi1 : inflight s.procs wid0 = 1 := by omega
                  rcases (c2 hi1).1 with hr | hstp
                  · rw [hs] at hr
                    exact absurd hr (by decide)
                  · rw [hs] at hstp
                    exact absurd hstp (by decide)
              have hopr : probes s.procs wid0 = 0 := by
                by_cases hz : probes s.procs wid0 = 0
                · exact hz
                · exfalso
                  have hp1 : probes s.procs wid0 = 1 := by omega
                  rcases (c1 hp1).1 with hst | hstp
                  · rw [hs] at hst
                    exact absurd hst (by decide)
                  · rw [hs] at hstp
                    exact absurd hstp (by decide)
              have hinf : inflight (setProc s.procs i (.assignWait wid0 c p o)) wid0 =
                  inflight s.procs wid0 + 1 :=
                count_set_add _ s.procs i _ _ hp rfl (by simp)
              have hpr : probes (setProc s.procs i (.assignWait wid0 c p o)) wid0 =
                  probes s.procs wid0 :=
                count_set_same _ s.procs i _ _ hp rfl
              unfold PoolInvAt
              refine ⟨by omega, by omega, ?_, ?_⟩
              · intro hn
                rw [wlookup_wupdate, hw] at hn
                simp at hn
              · intro w hwx
                rw [wlookup_wupdate, hw] at hwx
                simp only [Option.map_some'] at hwx
                have hwe := (Option.some.inj hwx).symm
                subst hwe
                refine ⟨?_, fun _ => ⟨Or.inl rfl, ?_, ?_⟩, fun _ => by omega, ?_⟩
                · intro hp1
                  exfalso
                  omega
                · intro hx
                  exact Option.noConfusion hx
                · intro hx
                  exact Option.noConfusion hx
                · intro h0
                  exfalso
                  omega
            · refine poolInvAt_congr s.workers _ s.procs _ wid
                (wlookup_wupdate_ne s.workers wid0 wid _ (fun he => hww he.symm)) ?_ ?_ (h wid)
              · exact count_set_same _ s.procs i _ _ hp (by simp [hww])
              · exact count_set_same _ s.procs i _ _ hp rfl
          · rw [stepProc_eq_assignStart_busy parseVal s i wid0 c p o w0 hp hw hs]
            intro wid
            show PoolInvAt s.workers
              (setProc s.procs i (assignBusyProc wid0 c w0.status)) wid
            refine poolInvAt_congr s.workers s.workers s.procs _ wid rfl ?_ ?_ (h wid)
            · exact count_set_same _ s.procs i _ _ hp rfl
            · exact count_set_same _ s.procs i _ _ hp rfl
      | assignWait wid0 c p o =>
        rw [stepProc_eq_assignWait parseVal s i wid0 c p o hp]
        intro wid
        show PoolInvAt
          (wupdate s.workers wid0 (fun w =>
            { w with status := .idle, current_task := none, assigned_company := none }))
          (setProc s.procs i (.finished (some (assign_result parseVal wid0 c o)))) wid
        by_cases hww : wid0 = wid
        · subst hww
          obtain ⟨h1, h2, h3, h4⟩ := h wid0
          have hinf : inflight (setProc s.procs i
              (.finished (some (assign_result parseVal wid0 c o)))) wid0 + 1 =
              inflight s.procs wid0 :=
            count_set_drop _ s.procs i _ _ hp (by simp) rfl
          have hpr : probes (setProc s.procs i
              (.finished (some (assign_result parseVal wid0 c o)))) wid0 =
              probes s.procs wid0 :=
            count_set_same _ s.procs i _ _ hp rfl
          have hoinf : inflight s.procs wid0 = 1 := by omega
          rcases hx : wlookup s.workers wid0 with _ | w0
          · exfalso
            have := h3 hx
            omega
          · obtain ⟨c1, c2, c3, c4⟩ := h4 w0 hx
            have hopr : probes s.procs wid0 = 0 := by
              by_cases hz : probes s.procs wid0 = 0
              · exact hz
              · exfalso
                have hp1 : probes s.procs wid0 = 1 := by omega
                have := (c1 hp1).2
                omega
            unfold PoolInvAt
            refine ⟨by omega, by omega, ?_, ?_⟩
            · intro hn
              rw [wlookup_wupdate, hx] at hn
              simp at hn
            · intro w hwx
              rw [wlookup_wupdate, hx] at hwx
              simp only [Option.map_some'] at hwx
              have hwe := (Option.some.inj hwx).symm
              subst hwe
              refine ⟨?_, ?_, ?_, fun _ => ⟨rfl, rfl⟩⟩
              · intro hp1
                exfalso
                omega
              · intro hi1
                exfalso
                omega
              · intro hr
                exact absurd
                  (show WorkerStatus.idle = WorkerStatus.running from hr) (by decide)
        · refine poolInvAt_congr s.workers _ s.procs _ wid
            (wlookup_wupdate_ne s.workers wid0 wid _ (fun he => hww he.symm)) ?_ ?_ (h wid)
          · exact count_set_same _ s.procs i _ _ hp (by simp [hww])
          · exact count_set_same _ s.procs i _ _ hp rfl

theorem poolInv_init (size : Nat) (po : Nat → RemoteOutcome) :
    PoolInv (initPool size po) := by
  intro wid
  refine ⟨?_, probes_init size po wid, ?_, ?_⟩
  · rw [inflight_init]
    omega
  · intro _
    exact inflight_init size po wid
  · intro w hw
    obtain ⟨hst, hct, hac⟩ := initPool_workers_fields size po wid w hw
    refine ⟨fun _ => ⟨Or.inl hst, inflight_init size po wid⟩, ?_, ?_, fun _ => ⟨hct, hac⟩⟩
    · intro hi
      rw [inflight_init] at hi
      cases hi
    · intro hr
      rw [hst] at hr
      cases hr

theorem runPool_inv (parseVal : String → String × String × String) :
    ∀ (acts : List PoolAct) (s : PoolSys),
      PoolInv s → PoolInv (runPool parseVal s acts) := by
  intro acts
  induction acts with
  | nil => intro s h; exact h
  | cons a rest ih =>
    intro s h
    exact ih _ (poolStep_inv parseVal s a h)

/-- No worker is `Stopping` (holds as long as no `shutdown` ran). -/
def noStop (ws : Workers) : Prop :=
  ∀ wid w, wlookup ws wid = some w → w.status ≠ .stopping

theorem noStop_step (parseVal : String → String × String × String) (s : PoolSys)
    (a : PoolAct) (hne : a ≠ .shutdown) (h : noStop s.workers) :
    noStop (poolStep parseVal s a).workers := by
  cases a with
  | getStatus => exact h
  | shutdown => exact absurd rfl hne
  | spawnAssign wid0 c p o => exact h
  | spawnParallel tasks outcomes =>
    have he : (poolStep parseVal s (.spawnParallel tasks outcomes)).workers = s.workers := by
      show ((if (get_idle_workers s.workers tasks.length).isEmpty then s
        else { s with procs := s.procs ++
          ((get_idle_workers s.workers tasks.length).zip tasks).map (fun q =>
            .assignStart q.1.config.worker_id q.2.1 q.2.2
              (outcomes q.1.config.worker_id)) }) : PoolSys).workers = s.workers
      by_cases hie : (get_idle_workers s.workers tasks.length).isEmpty
      · rw [if_pos hie]
      · rw [if_neg hie]
    rw [he]
    exact h
  | runProc i =>
    show noStop (stepProc parseVal s i).workers
    rcases hp : s.procs.get? i with _ | proc
    · rw [stepProc_eq_missing parseVal s i hp]
      exact h
    · cases proc with
      | finished r =>
        rw [stepProc_eq_finished parseVal s i r hp]
        exact h
      | probeStart wid0 o =>
        rcases hw : wlookup s.workers wid0 with _ | w0
        · rw [stepProc_eq_probeStart_miss parseVal s i wid0 o hp hw]
          exact h
        · rw [stepProc_eq_probeStart_hit parseVal s i wid0 o w0 hp hw]
          exact h
      | probeWait wid0 o =>
        rw [stepProc_eq_probeWait parseVal s i wid0 o hp]
        intro wid w hwx
        by_cases hww : wid0 = wid
        · subst hww
          rw [wlookup_wupdate] at hwx
          rcases hx : wlookup s.workers wid0 with _ | w0
          · rw [hx] at hwx
            simp at hwx
          · rw [hx] at hwx
            simp only [Option.map_some'] at hwx
            have hwe := (Option.some.inj hwx).symm
            subst hwe
            exact probeStatus_ne_stopping o
        · rw [wlookup_wupdate_ne s.workers wid0 wid _ (fun he => hww he.symm)] at hwx
          exact h wid w hwx
      | assignStart wid0 c p o =>
        rcases hw : wlookup s.workers wid0 with _ | w0
        · rw [stepProc_eq_assignStart_miss parseVal s i wid0 c p o hp hw]
          exact h
        · by_cases hs : w0.status = .idle
          · rw [stepProc_eq_assignStart_idle parseVal s i wid0 c p o w0 hp hw hs]
            show noStop (wupdate s.workers wid0 (fun w =>
              { w with status := .running
                       current_task := some p
                       assigned_company := some c }))
            intro wid w hwx
            by_cases hww : wid0 = wid
            · subst hww
              rw [wlookup_wupdate, hw] at hwx
              simp only [Option.map_some'] at hwx
              have hwe := (Option.some.inj hwx).symm
              subst hwe
              intro hh
              exact absurd (show WorkerStatus.running = .stopping from hh) (by decide)
            · rw [wlookup_wupdate_ne s.workers wid0 wid _ (fun he => hww he.symm)] at hwx
              exact h wid w hwx
          · rw [stepProc_eq_assignStart_busy parseVal s i wid0 c p o w0 hp hw hs]
            exact h
      | assignWait wid0 c p o =>
        rw [stepProc_eq_assignWait parseVal s i wid0 c p o hp]
        intro wid w hwx
        by_cases hww : wid0 = wid
        · subst hww
          rw [wlookup_wupdate] at hwx
          rcases hx : wlookup s.workers wid0 with _ | w0
          · rw [hx] at hwx
            simp at hwx
          · rw [hx] at hwx
            simp only [Option.map_some'] at hwx
            have hwe := (Option.some.inj hwx).symm
            subst hwe
            intro hh
            exact absurd (show WorkerStatus.idle = .stopping from hh) (by decide)
        · rw [wlookup_wupdate_ne s.workers wid0 wid _ (fun he => hww he.symm)] at hwx
          exact h wid w hwx

theorem hasShutdown_cons (a : PoolAct) (rest : List PoolAct)
    (h : hasShutdown (a :: rest) = false) :
    a ≠ PoolAct.shutdown ∧ hasShutdown rest = false := by
  cases a with
  | shutdown => exact Bool.noConfusion h
  | getStatus => exact ⟨fun hh => PoolAct.noConfusion hh, h⟩
  | runProc i => exact ⟨fun hh => PoolAct.noConfusion hh, h⟩
  | spawnAssign wid c p o => exact ⟨fun hh => PoolAct.noConfusion hh, h⟩
  | spawnParallel tasks outcomes => exact ⟨fun hh => PoolAct.noConfusion hh, h⟩

theorem runPool_noStop (parseVal : String → String × String × String) :
    ∀ (acts : List PoolAct) (s : PoolSys), hasShutdown acts = false →
      noStop s.workers → noStop (runPool parseVal s acts).workers := by
  intro acts
  induction acts with
  | nil => intro s _ h; exact h
  | cons a rest ih =>
    intro s hsd h
    obtain ⟨hne, hrest⟩ := hasShutdown_cons a rest hsd
    exact ih _ hrest (noStop_step parseVal s a hne h)

/-- The mark-Running segment of an `assign_task` coroutine fires only
when its worker exists and is `Idle` at that instant (the check and the
mark sit in one atomic lock-protected segment, lines 134-155). -/
theorem stepProc_marks_only_idle (parseVal : String → String × String × String)
    (s : PoolSys) (i wid : Nat) (c p : String) (o : RemoteOutcome)
    (h : s.procs.get? i = some (.assignStart wid c p o))
    (h2 : (stepProc parseVal s i).procs.get? i = some (.assignWait wid c p o)) :
    ∃ w, wlookup s.workers wid = some w ∧ w.status = .idle := by
  rcases hw : wlookup s.workers wid with _ | w0
  · rw [stepProc_eq_assignStart_miss parseVal s i wid c p o h hw] at h2
    have h2' : (setProc s.procs i (assignMissProc wid c)).get? i =
        some (.assignWait wid c p o) := h2
    have h3 : (setProc s.procs i (assignMissProc wid c)).get? i =
        some (assignMissProc wid c) := get?_set_self s.procs i _ _ h
    exact PoolProc.noConfusion (Option.some.inj (h3.symm.trans h2'))
  · by_cases hs : w0.status = .idle
    · exact ⟨w0, rfl, hs⟩
    · rw [stepProc_eq_assignStart_busy parseVal s i wid c p o w0 h hw hs] at h2
      have h2' : (setProc s.procs i (assignBusyProc wid c w0.status)).get? i =
          some (.assignWait wid c p o) := h2
      have h3 : (setProc s.procs i (assignBusyProc wid c w0.status)).get? i =
          some (assignBusyProc wid c w0.status) := get?_set_self s.procs i _ _ h
      exact PoolProc.noConfusion (Option.some.inj (h3.symm.trans h2'))

/-- A valuation parser whose output is irrelevant to worker state. -/
def cexParseVal : String → String × String × String := fun _ => ("", "", "")

/-- Health probes that all succeed with HTTP 200. -/
def cexProbe : Nat → RemoteOutcome := fun _ => .resp 200 (.ok .null)

/-- Schedule: worker 1's health probe resolves (worker becomes `Idle`),
an `assign_task` is spawned and runs its mark-Running segment, then
`shutdown` fires while the remote `/execute` call is still in flight. -/
def cexSched : List PoolAct :=
  [.runProc 0, .runProc 0,
   .spawnAssign 1 "Acme" "research Acme" (.resp 200 (.ok .null)),
   .runProc 1, .shutdown]

/-- C2 counterexample: a reachable pool state (health probe resolves,
assignment marks the worker `Running`, `shutdown` lands before the
`finally` release) in which worker 1 has status `Stopping` while its
`current_task` is still non-null — `shutdown` (lines 325-333) overwrites
every status without clearing assignment fields, so `current_task` is
non-null without the status being `Running`. -/
theorem worker_state_invariant_cex :
    (wlookup (runPool cexParseVal (initPool 1 cexProbe) cexSched).workers 1).map
      (fun w => (w.status, w.current_task)) =
      some (WorkerStatus.stopping, some "research Acme") := by
  decide

/-- C2 amended: (1) on every schedule that contains no `shutdown`, every
worker's `current_task` is non-null iff its status is `Running`; (2) on
every schedule — `shutdown` included — each worker has at most one
in-flight assignment at any time; (3) an `assign_task` coroutine marks a
worker `Running` (passing into its await segment) only if the worker
exists and is `Idle` at that instant.  With a `shutdown`, part (1)'s iff
can fail (see the counterexample): `shutdown` sets `Stopping` without
clearing `current_task`. -/
theorem worker_state_invariant_amended (parseVal : String → String × String × String)
    (size : Nat) (po : Nat → RemoteOutcome) (acts : List PoolAct) :
    (hasShutdown acts = false →
      ∀ wid w, wlookup (runPool parseVal (initPool size po) acts).workers wid = some w →
        (w.current_task ≠ none ↔ w.status = .running)) ∧
    (∀ wid, inflight (runPool parseVal (initPool size po) acts).procs wid ≤ 1) ∧
    (∀ (s : PoolSys) (i wid : Nat) (c p : String) (o : RemoteOutcome),
      s.procs.get? i = some (.assignStart wid c p o) →
      (stepProc parseVal s i).procs.get? i = some (.assignWait wid c p o) →
      ∃ w, wlookup s.workers wid = some w ∧ w.status = .idle) := by
  have hinv : PoolInv (runPool parseVal (initPool size po) acts) :=
    runPool_inv parseVal acts _ (poolInv_init size po)
  refine ⟨?_, fun wid => (hinv wid).1,
    fun s i wid c p o h1 h2 => stepProc_marks_only_idle parseVal s i wid c p o h1 h2⟩
  intro hsd wid w hw
  have hns : noStop (runPool parseVal (initPool size po) acts).workers :=
    runPool_noStop parseVal acts _ hsd (fun wid' w' hw' => by
      obtain ⟨hst, _, _⟩ := initPool_workers_fields size po wid' w' hw'
      rw [hst]
      decide)
  obtain ⟨h1, h2, h3, h4⟩ := hinv wid
  obtain ⟨c1, c2, c3, c4⟩ := h4 w hw
  constructor
  · intro ht
    by_cases hz : inflight (runPool parseVal (initPool size po) acts).procs wid = 0
    · exact absurd (c4 hz).1 ht
    · have hi1 : inflight (runPool parseVal (initPool size po) acts).procs wid = 1 := by
        omega
      rcases (c2 hi1).1 with hr | hstp
      · exact hr
      · exact absurd hstp (hns wid w hw)
  · intro hr
    exact (c2 (c3 hr)).2.1

theorem worker_state_invariant_amended_witness :
    inflight (runPool cexParseVal (initPool 1 cexProbe)
      [PoolAct.runProc 0, PoolAct.runProc 0]).procs 1 ≤ 1 :=
  (worker_state_invariant_amended cexParseVal 1 cexProbe
    [PoolAct.runProc 0, PoolAct.runProc 0]).2.1 1

end WatchAndLearn
